import Mathlib

/-!
Verification of the CareBridge discharge-summary reconciliation pipeline.

The JavaScript sources (documentParser.js, outputValidator.js,
postProcessSummary.js, ollamaClient.js, and the server utilities) are
shallowly embedded here.  Text is modelled as `List Char`; each JavaScript
regular-expression operation is embedded as an executable scanner whose
semantics (leftmost match, greedy/lazy repetition with the backtracking
behaviour the concrete pattern admits) follows the source pattern.
-/

set_option maxRecDepth 4096

abbrev Str := List Char

/-- JavaScript `\s` (ECMAScript WhiteSpace plus LineTerminator). -/
def jsWs (c : Char) : Bool :=
  c = ' ' || c = '\t' || c = '\n' || c = Char.ofNat 11 || c = Char.ofNat 12 ||
  c = '\r' || c = Char.ofNat 0xA0 || c = Char.ofNat 0x1680 ||
  (0x2000 ≤ c.toNat && c.toNat ≤ 0x200A) || c = Char.ofNat 0x2028 ||
  c = Char.ofNat 0x2029 || c = Char.ofNat 0x202F || c = Char.ofNat 0x205F ||
  c = Char.ofNat 0x3000 || c = Char.ofNat 0xFEFF

/-- JavaScript `\d`. -/
def jsDigit (c : Char) : Bool := '0' ≤ c && c ≤ '9'

/-- JavaScript `\w`: ASCII letters, digits and underscore. -/
def jsWord (c : Char) : Bool :=
  ('a' ≤ c && c ≤ 'z') || ('A' ≤ c && c ≤ 'Z') || jsDigit c || c = '_'

def asciiUpper (c : Char) : Bool := 'A' ≤ c && c ≤ 'Z'

def asciiLower (c : Char) : Bool := 'a' ≤ c && c ≤ 'z'

def asciiLetter (c : Char) : Bool := asciiUpper c || asciiLower c

/-- Case folding used for the `/i` regex flag (ASCII letters only,
    which covers every case-insensitive pattern in the sources). -/
def lowerC (c : Char) : Char :=
  if asciiUpper c then Char.ofNat (c.toNat + 32) else c

def charEqCI (a b : Char) : Bool := lowerC a = lowerC b

/-- Case-sensitive "pattern is a prefix of s". -/
def startsWith : Str → Str → Bool
  | [], _ => true
  | _ :: _, [] => false
  | p :: ps, c :: cs => p = c && startsWith ps cs

/-- Case-insensitive "pattern is a prefix of s". -/
def startsWithCI : Str → Str → Bool
  | [], _ => true
  | _ :: _, [] => false
  | p :: ps, c :: cs => charEqCI p c && startsWithCI ps cs

/-- Case-sensitive substring test (JavaScript `String.prototype.includes`). -/
def containsSub : Str → Str → Bool
  | [], pat => startsWith pat []
  | c :: cs, pat => startsWith pat (c :: cs) || containsSub cs pat

/-- Case-insensitive substring test (a `/pat/i` regex with a literal body). -/
def containsSubCI : Str → Str → Bool
  | [], pat => startsWithCI pat []
  | c :: cs, pat => startsWithCI pat (c :: cs) || containsSubCI cs pat

/-- Index of the first (case-sensitive) occurrence of `pat`
    (JavaScript `String.prototype.indexOf`, `none` for `-1`). -/
def indexOfSub? : Str → Str → Option Nat
  | [], pat => if startsWith pat [] then some 0 else none
  | c :: cs, pat =>
    if startsWith pat (c :: cs) then some 0
    else (indexOfSub? cs pat).map (· + 1)

def lastIndexOfCharAux (t : Char) : Str → Nat → Option Nat → Option Nat
  | [], _, acc => acc
  | c :: cs, i, acc => lastIndexOfCharAux t cs (i + 1) (if c = t then some i else acc)

/-- Index of the last occurrence of the single character `t`
    (JavaScript `String.prototype.lastIndexOf` with a one-character needle). -/
def lastIndexOfChar? (s : Str) (t : Char) : Option Nat :=
  lastIndexOfCharAux t s 0 none

/-- JavaScript `String.prototype.trim` (both ends, `\s`). -/
def trimStr (s : Str) : Str :=
  ((s.dropWhile jsWs).reverse.dropWhile jsWs).reverse

/-- JavaScript `String.prototype.trimEnd`. -/
def trimEndStr (s : Str) : Str :=
  (s.reverse.dropWhile jsWs).reverse

/-- `String.prototype.split('\n')` (no limit, keeps empty segments). -/
def splitLines (s : Str) : List Str :=
  go s []
where go : Str → Str → List Str
  | [], acc => [acc.reverse]
  | c :: cs, acc => if c = '\n' then acc.reverse :: go cs [] else go cs (c :: acc)

/-- `Array.prototype.join('\n')`. -/
def joinLines : List Str → Str
  | [] => []
  | [l] => l
  | l :: ls => l ++ '\n' :: joinLines ls

/-- Generic global replace driver.  `m` attempts a match at the head of its
    argument and returns `(matchedLength, replacementText)`; every pattern
    embedded with this driver consumes at least one character on success.
    Mirrors `String.prototype.replace` with the `g` flag: leftmost match,
    emit replacement, continue scanning after the matched segment. -/
def replAll (m : Str → Option (Nat × Str)) : Nat → Str → Str
  | 0, s => s
  | _ + 1, [] => []
  | fuel + 1, c :: cs =>
    match m (c :: cs) with
    | some (n, rep) => rep ++ replAll m fuel (List.drop (n - 1) cs)
    | none => c :: replAll m fuel cs

/-- Non-global replace: only the first match is replaced
    (`String.prototype.replace` without the `g` flag). -/
def replFirst (m : Str → Option (Nat × Str)) : Str → Str
  | [] => []
  | c :: cs =>
    match m (c :: cs) with
    | some (n, rep) => rep ++ List.drop (n - 1) cs
    | none => c :: replFirst m cs

/-- Truncate at the first position where `m` matches, keeping nothing of the
    match (embeds `replace(/LITERAL[\s\S]*$/, '')`-style rules). -/
def truncAt (m : Str → Bool) : Str → Str
  | [] => []
  | c :: cs => if m (c :: cs) then [] else c :: truncAt m cs

/-- Control characters stripped by `sanitizeInput`
    (`[\x00-\x08\x0B\x0C\x0E-\x1F\x7F]`). -/
def strippedCtrl (c : Char) : Bool :=
  c.toNat ≤ 8 || c.toNat = 11 || c.toNat = 12 ||
  (14 ≤ c.toNat && c.toNat ≤ 31) || c.toNat = 127

/-- Whitespace-run collapse: `replace(/\s+/g, ' ')`.  `inRun` records whether
    the previous character was part of a whitespace run already emitted. -/
def collapseWs : Bool → Str → Str
  | _, [] => []
  | inRun, c :: cs =>
    if jsWs c then
      if inRun then collapseWs true cs else ' ' :: collapseWs true cs
    else c :: collapseWs false cs

/-- ollamaClient.js `sanitizeInput`: strip control characters, collapse every
    whitespace run to a single space, trim. -/
def sanitizeInput (t : Str) : Str :=
  trimStr (collapseWs false (t.filter (fun c => !strippedCtrl c)))

theorem collapseWs_no_newline (b : Bool) (s : Str) :
    '\n' ∉ collapseWs b s := by
  induction s generalizing b with
  | nil => simp [collapseWs]
  | cons c cs ih =>
    simp only [collapseWs]
    by_cases h : jsWs c = true
    · simp only [h, if_true]
      cases b <;> simp_all <;> intro hc <;> simp_all
    · simp only [Bool.not_eq_true] at h
      simp [h, ih]
      intro hc
      rw [← hc] at h
      simp [jsWs] at h

theorem mem_of_mem_dropWhile {p : Char → Bool} {c : Char} {s : Str}
    (h : c ∈ s.dropWhile p) : c ∈ s := by
  induction s with
  | nil => simpa [List.dropWhile] using h
  | cons a as ih =>
    by_cases ha : p a = true
    · simp [List.dropWhile, ha] at h
      exact List.mem_cons_of_mem _ (ih h)
    · simp only [Bool.not_eq_true] at ha
      simpa [List.dropWhile, ha] using h

theorem mem_of_mem_trimStr {c : Char} {s : Str} (h : c ∈ trimStr s) : c ∈ s := by
  unfold trimStr at h
  rw [List.mem_reverse] at h
  have h1 := mem_of_mem_dropWhile h
  rw [List.mem_reverse] at h1
  exact mem_of_mem_dropWhile h1

/-- The sanitizer's output never contains a newline: every whitespace run,
    newlines included, is collapsed to a single space. -/
theorem sanitizeInput_no_newline (t : Str) : '\n' ∉ sanitizeInput t := by
  intro h
  exact collapseWs_no_newline false _ (mem_of_mem_trimStr h)

/-! ## Parser-state combinators for embedded regular expressions

A parse state is `(remaining text, characters consumed so far)`.  Each
combinator mirrors one regex token; greedy repetition over a character class
followed by a token outside the class needs no backtracking, which covers
every pattern embedded below (argued rule by rule at the definitions). -/

abbrev PSt := Str × Nat

def eatLit (pat : Str) (st : PSt) : Option PSt :=
  if startsWith pat st.1 then some (st.1.drop pat.length, st.2 + pat.length) else none

def eatLitCI (pat : Str) (st : PSt) : Option PSt :=
  if startsWithCI pat st.1 then some (st.1.drop pat.length, st.2 + pat.length) else none

/-- Greedy `p*` over a character class. -/
def eatRun (p : Char → Bool) (st : PSt) : PSt :=
  let r := st.1.takeWhile p
  (st.1.drop r.length, st.2 + r.length)

/-- Greedy `p+` over a character class. -/
def eatRun1 (p : Char → Bool) (st : PSt) : Option PSt :=
  let r := st.1.takeWhile p
  if r.isEmpty then none else some (st.1.drop r.length, st.2 + r.length)

/-- Optional single character `c?`. -/
def eatOpt (p : Char → Bool) (st : PSt) : PSt :=
  match st.1 with
  | c :: cs => if p c then (cs, st.2 + 1) else st
  | [] => st

def eatCharP (p : Char → Bool) (st : PSt) : Option PSt :=
  match st.1 with
  | c :: cs => if p c then some (cs, st.2 + 1) else none
  | [] => none

def eatChar (c : Char) (st : PSt) : Option PSt := eatCharP (· = c) st

/-- Exactly `n` characters of class `p` (`p{n}`). -/
def eatExact (p : Char → Bool) : Nat → PSt → Option PSt
  | 0, st => some st
  | n + 1, st => (eatCharP p st).bind (eatExact p n)

/-- Ordered case-insensitive alternation of literals. -/
def eatAltCI (pats : List Str) (st : PSt) : Option PSt :=
  pats.findSome? (fun a => eatLitCI a st)

/-- Ordered case-sensitive alternation of literals. -/
def eatAlt (pats : List Str) (st : PSt) : Option PSt :=
  pats.findSome? (fun a => eatLit a st)

/-- Lazy `allowed*?` followed by `stop` (`[^x]*?(?=...)`-style tails that
    consume the stop): take the shortest run of `allowed` characters after
    which `stop` succeeds, consuming through the stop. -/
def lazyThru (stop : PSt → Option PSt) (allowed : Char → Bool) : Str → Nat → Option PSt
  | rem, n =>
    match stop (rem, n) with
    | some st => some st
    | none =>
      match rem with
      | [] => none
      | c :: cs => if allowed c then lazyThru stop allowed cs (n + 1) else none

/-- Leftmost application of a head matcher: scan forward to the first
    position where `try?` succeeds and return the matched slice. -/
def scanFirst (try? : Str → Option Nat) : Str → Option Str
  | [] => (try? []).map (fun n => List.take n ([] : Str))
  | s@(_ :: cs) =>
    match try? s with
    | some n => some (s.take n)
    | none => scanFirst try? cs

/-! ## documentParser.js : parseDischargeDocument -/

structure ExtractedFacts where
  diagnoses : List Str
  hospitalMedications : List Str
  dischargeMedications : List Str
  tests : List Str
  hasStructuredData : Bool
deriving DecidableEq, Repr

/-- Character class `[;\s:]` of the diagnosis anchors. -/
def diagGap (c : Char) : Bool := c = ';' || c = ':' || jsWs c

/-- Character class `[:\s]` of the other section anchors. -/
def colonGap (c : Char) : Bool := c = ':' || jsWs c

/-- Capture of `([\s\S]*?)(?=stop1|stop2|...|$)`: lazy, ends at the first
    position where some stop literal matches case-insensitively, or at the
    end of the text. -/
def captureUntil (stops : List Str) : Str → Str
  | [] => []
  | c :: cs =>
    if stops.any (fun p => startsWithCI p (c :: cs)) then []
    else c :: captureUntil stops cs

/-- One anchor alternative attempted at a fixed position:
    `ANCHOR[gap]*\n(capture)`.  The greedy `[gap]*` (whose class contains
    `\n`) backtracks to the last newline of the maximal gap run. -/
def anchorAttempt (gap : Char → Bool) (stops : List Str) (anchor : Str)
    (s : Str) : Option Str :=
  if startsWithCI anchor s then
    let rest := s.drop anchor.length
    let run := rest.takeWhile gap
    match lastIndexOfChar? run '\n' with
    | some j => some (captureUntil stops (rest.drop (j + 1)))
    | none => none
  else none

/-- Leftmost match of `(?:A1|A2|...)[gap]*\n([\s\S]*?)(?=stops|$)` with the
    `i` flag: at each position the alternatives are tried in order. -/
def sectionScan (anchors : List Str) (gap : Char → Bool) (stops : List Str) :
    Str → Option Str
  | [] => anchors.findSome? (fun a => anchorAttempt gap stops a [])
  | s@(_ :: cs) =>
    match anchors.findSome? (fun a => anchorAttempt gap stops a s) with
    | some cap => some cap
    | none => sectionScan anchors gap stops cs

/-- Diagnosis-section line filter of parseDischargeDocument. -/
def diagLineKeep (line : Str) : Bool :=
  !line.isEmpty &&
  !(["Patient Details", "Name", "IP No", "Ward", "Registration", "Date",
     "Age", "Sex", "Department", "Years", "Female", "Male"].map
      String.toList).any (fun p => startsWithCI p line) &&
  !(Option.isSome (do
      let st ← eatRun1 jsDigit (line, 0)
      let st ← eatChar '/' st
      let st ← eatRun1 jsDigit st
      let st ← eatChar '/' st
      eatRun1 jsDigit st)) &&
  !(startsWithCI "Admission Time".toList line ||
    startsWithCI "Discharge Time".toList line)

/-- The three diagnosis patterns, in source order: anchors and lookahead
    stops of each. -/
def diagnosisPatterns : List (Str × List Str) :=
  [("Final Diagnosis".toList,
    ["History of Present Illness", "Brief Course", "Procedures",
     "Treatment Given"].map String.toList),
   ("Diagnosis".toList,
    ["History", "Brief Course", "Treatment", "Procedures"].map String.toList),
   ("Diagnoses".toList,
    ["History", "Brief Course", "Treatment"].map String.toList)]

/-- Step 1 of parseDischargeDocument: first pattern whose captured section
    still has lines after trimming and noise filtering wins. -/
def extractDiagnoses (raw : Str) : List Str :=
  go diagnosisPatterns
where go : List (Str × List Str) → List Str
  | [] => []
  | (anchor, stops) :: ps =>
    match sectionScan [anchor] diagGap stops raw with
    | some cap =>
      let lines := ((splitLines (trimStr cap)).map trimStr).filter diagLineKeep
      if lines.isEmpty then go ps else lines
    | none => go ps

/-- Medication-line detector `isMedLine` of extractMedicationsFromText.
    First disjunct: `\b(HOME|TAB|CAP|INJ|SYR|SUSP|TABLET|CAPSULE|INJECTION|SYRUP)\b/i`. -/
def hasWordBoundedCI (w : Str) : Option Char → Str → Bool
  | prev, c :: cs =>
    (startsWithCI w (c :: cs) &&
      (match prev with | some p => !jsWord p | none => true) &&
      (match (c :: cs).drop w.length with | [] => true | d :: _ => !jsWord d)) ||
    hasWordBoundedCI w (some c) cs
  | _, [] => false

def dosageFormWords : List Str :=
  ["HOME", "TAB", "CAP", "INJ", "SYR", "SUSP", "TABLET", "CAPSULE",
   "INJECTION", "SYRUP"].map String.toList

/-- `\d+-\d+-\d+` somewhere in the line. -/
def hasTimingCode (line : Str) : Bool :=
  (scanFirst (fun s => (do
    let st ← eatRun1 jsDigit (s, 0)
    let st ← eatChar '-' st
    let st ← eatRun1 jsDigit st
    let st ← eatChar '-' st
    let st ← eatRun1 jsDigit st
    pure st.2)) line).isSome

/-- `X\s*\d+\s*DAYS/i` somewhere in the line. -/
def hasDuration (line : Str) : Bool :=
  (scanFirst (fun s => (do
    let st ← eatLitCI "X".toList (s, 0)
    let st := eatRun jsWs st
    let st ← eatRun1 jsDigit st
    let st := eatRun jsWs st
    let st ← eatLitCI "DAYS".toList st
    pure st.2)) line).isSome

/-- `NEBULI[SZ]ATION/i` somewhere in the line. -/
def hasNebulization (line : Str) : Bool :=
  (scanFirst (fun s => (do
    let st ← eatLitCI "NEBULI".toList (s, 0)
    let st ← eatCharP (fun c => charEqCI c 'S' || charEqCI c 'Z') st
    let st ← eatLitCI "ATION".toList st
    pure st.2)) line).isSome

/-- `\d+\s*(MG|GM|ML|MCG|LT\/MIN)\b/i` somewhere in the line: ordered
    alternation, each alternative checked with its trailing word boundary. -/
def hasDosageUnit (line : Str) : Bool :=
  (scanFirst (fun s => (do
    let st ← eatRun1 jsDigit (s, 0)
    let st := eatRun jsWs st
    let st ← (["MG", "GM", "ML", "MCG", "LT/MIN"].map String.toList).findSome?
      (fun u => do
        let st2 ← eatLitCI u st
        match st2.1 with
        | [] => pure st2
        | d :: _ => if jsWord d then none else pure st2)
    pure st.2)) line).isSome

/-- `^\d+[\.\)]\s*(TAB|CAP|INJ|HOME)` (case-sensitive, anchored). -/
def hasNumberedMedStart (line : Str) : Bool :=
  (do
    let st ← eatRun1 jsDigit (line, 0)
    let st ← eatCharP (fun c => c = '.' || c = ')') st
    let st := eatRun jsWs st
    eatAlt (["TAB", "CAP", "INJ", "HOME"].map String.toList) st).isSome

def isMedLine (line : Str) : Bool :=
  dosageFormWords.any (fun w => hasWordBoundedCI w none line) ||
  hasNumberedMedStart line ||
  hasTimingCode line ||
  hasDuration line ||
  containsSubCI line "OXYGEN".toList ||
  hasNebulization line ||
  hasDosageUnit line

/-- Non-medication-line detector `isNonMedLine`. -/
def isNonMedLine (line : Str) : Bool :=
  (["CONTINUE", "FOLLOW", "REVIEW", "AVOID", "DIET", "EXERCISE", "LIFESTYLE",
    "PLEASE", "KINDLY", "NOTE"].map String.toList).any
      (fun p => startsWithCI p line) ||
  (["Monitor", "Check", "Measure", "Record"].map String.toList).any
      (fun p => startsWith p line) ||
  (!line.isEmpty && line.all (· = '-')) ||
  (startsWithCI "Follow".toList line && containsSubCI (line.drop 6) "up".toList) ||
  containsSubCI line "Emergency".toList ||
  line.length < 5

/-- `medEntry.replace(/^\d+[\.\)]\s*/, '')`. -/
def stripLeadNum (line : Str) : Str :=
  match (do
    let st ← eatRun1 jsDigit (line, 0)
    let st ← eatCharP (fun c => c = '.' || c = ')') st
    pure (eatRun jsWs st)) with
  | some st => st.1
  | none => line

/-- `^\s*(FOLLOWED BY|AND STOP|THEN|WITH|FOR|VIA|TO BE|AS|CONTINUE)/i`:
    the next line begins with a continuation marker. -/
def beginsWithContinuationMarker (next : Str) : Bool :=
  let st := eatRun jsWs (next, 0)
  (["FOLLOWED BY", "AND STOP", "THEN", "WITH", "FOR", "VIA", "TO BE", "AS",
    "CONTINUE"].map String.toList).any (fun p => startsWithCI p st.1)

/-- Continuation-line test of extractMedicationsFromText (depends on the
    medication entry built so far through its `FOLLOWED BY` clause). -/
def isContinuation (medEntry next : Str) : Bool :=
  beginsWithContinuationMarker next ||
  ((let st := eatRun jsWs (next, 0)
    (["TAB", "CAP", "INJ"].map String.toList).any
      (fun p => startsWithCI p st.1)) &&
    containsSubCI medEntry "FOLLOWED BY".toList) ||
  ((let st := eatRun jsWs (next, 0)
    (["FOR", "VIA", "WITH", "TO"].map String.toList).any
      (fun p => startsWith p st.1)) &&
   !(startsWithCI "FOLLOW UP".toList next ||
     startsWithCI "FOR REVIEW".toList next))

/-- The inner `while (j < lines.length)` continuation-absorption loop. -/
def medAbsorb (medEntry : Str) : List Str → Str × List Str
  | [] => (medEntry, [])
  | next :: rest =>
    if isContinuation medEntry next then
      medAbsorb (medEntry ++ ' ' :: trimStr next) rest
    else (medEntry, next :: rest)

/-- The outer `while (i < lines.length)` loop, fuelled (each iteration
    consumes at least one line, so `lines.length + 1` fuel is exact). -/
def medLoop : Nat → List Str → List Str
  | 0, _ => []
  | _ + 1, [] => []
  | fuel + 1, line :: rest =>
    if isMedLine line && !isNonMedLine line then
      let (entry, rest2) := medAbsorb (stripLeadNum line) rest
      entry :: medLoop fuel rest2
    else medLoop fuel rest

/-- documentParser.js `extractMedicationsFromText`. -/
def extractMedicationsFromText (text : Str) : List Str :=
  let lines := ((splitLines text).map trimStr).filter (fun l => !l.isEmpty)
  medLoop (lines.length + 1) lines

/-- Step 2 of parseDischargeDocument: hospital-treatment section patterns,
    first matching pattern wins (even when it yields no medications). -/
def hospitalSection? (raw : Str) : Option Str :=
  match
    sectionScan
      (["Treatment Given", "Brief Course of Admission", "During Hospital Stay",
        "Course in Hospital"].map String.toList)
      colonGap
      (["Condition at Discharge", "Advice", "Follow Up",
        "Discharge Instructions"].map String.toList) raw with
  | some cap => some cap
  | none =>
    sectionScan ["Brief Course".toList] colonGap
      (["Condition at Discharge", "Advice", "Follow Up"].map String.toList) raw

/-- Step 3 of parseDischargeDocument: discharge-advice section patterns,
    first matching pattern wins; the capture is trimmed before extraction. -/
def dischargeSection? (raw : Str) : Option Str :=
  let stops1 :=
    ["Follow Up", "Related Emergency", "NOTE", "Dr.", "Prepared By", "Conslt.",
     "Junior Resident", "Signature"].map String.toList
  match
    sectionScan
      (["Advice on Discharge", "Discharge Advice",
        "Discharge Instructions"].map String.toList) colonGap stops1 raw with
  | some cap => some (trimStr cap)
  | none =>
    match sectionScan ["Advice".toList] colonGap stops1 raw with
    | some cap => some (trimStr cap)
    | none =>
      (sectionScan
        (["Medications to Continue", "Discharge Medications"].map String.toList)
        colonGap
        (["Follow Up", "Related Emergency", "NOTE"].map String.toList)
        raw).map trimStr

/-- `Hb\s*-?\s*[\d.]+/i`. -/
def findHb (txt : Str) : Option Str :=
  (scanFirst (fun s => (do
    let st ← eatLitCI "Hb".toList (s, 0)
    let st := eatRun jsWs st
    let st := eatOpt (· = '-') st
    let st := eatRun jsWs st
    let st ← eatRun1 (fun c => jsDigit c || c = '.') st
    pure st.2)) txt).map trimStr

/-- `Tc\s*-?\s*[\d.]+/i`. -/
def findTc (txt : Str) : Option Str :=
  (scanFirst (fun s => (do
    let st ← eatLitCI "Tc".toList (s, 0)
    let st := eatRun jsWs st
    let st := eatOpt (· = '-') st
    let st := eatRun jsWs st
    let st ← eatRun1 (fun c => jsDigit c || c = '.') st
    pure st.2)) txt).map trimStr

/-- `plt\s*-?\s*[\d.]+[A-Z]*/i`. -/
def findPlt (txt : Str) : Option Str :=
  (scanFirst (fun s => (do
    let st ← eatLitCI "plt".toList (s, 0)
    let st := eatRun jsWs st
    let st := eatOpt (· = '-') st
    let st := eatRun jsWs st
    let st ← eatRun1 (fun c => jsDigit c || c = '.') st
    let st := eatRun asciiLetter st
    pure st.2)) txt).map trimStr

/-- `2D\s*ECHO[^.]*?(?:MMHG|mmhg)/i`. -/
def findEcho (txt : Str) : Option Str :=
  (scanFirst (fun s => (do
    let st ← eatLitCI "2D".toList (s, 0)
    let st := eatRun jsWs st
    let st ← eatLitCI "ECHO".toList st
    let st ← lazyThru (eatAltCI ["MMHG".toList]) (· ≠ '.') st.1 st.2
    pure st.2)) txt).map trimStr

/-- `COV[I\s]*FLU\s*PANEL[^.]*?(?:POSITIVE|NEGATIVE)/i`. -/
def findFlu (txt : Str) : Option Str :=
  (scanFirst (fun s => (do
    let st ← eatLitCI "COV".toList (s, 0)
    let st := eatRun (fun c => charEqCI c 'I' || jsWs c) st
    let st ← eatLitCI "FLU".toList st
    let st := eatRun jsWs st
    let st ← eatLitCI "PANEL".toList st
    let st ← lazyThru (eatAltCI (["POSITIVE", "NEGATIVE"].map String.toList))
      (· ≠ '.') st.1 st.2
    pure st.2)) txt).map trimStr

/-- `6\s*M[W]*T[^.]*?\d+%/i`. -/
def findWalk (txt : Str) : Option Str :=
  (scanFirst (fun s => (do
    let st ← eatChar '6' (s, 0)
    let st := eatRun jsWs st
    let st ← eatCharP (charEqCI · 'M') st
    let st := eatRun (charEqCI · 'W') st
    let st ← eatCharP (charEqCI · 'T') st
    let st ← lazyThru (fun p => (eatRun1 jsDigit p).bind (eatChar '%'))
      (· ≠ '.') st.1 st.2
    pure st.2)) txt).map trimStr

/-- Test extractions pushed in source order from a matched section. -/
def testFinds (txt : Str) : List Str :=
  (findHb txt).toList ++ (findTc txt).toList ++ (findPlt txt).toList ++
  (findEcho txt).toList ++ (findFlu txt).toList ++ (findWalk txt).toList

/-- Step 4 of parseDischargeDocument: the two test-section patterns; results
    accumulate, and the loop breaks once the list is non-empty after a
    matching pattern. -/
def extractTests (raw : Str) : List Str :=
  go [(["Brief Course of Admission", "Treatment Given",
        "Investigations"].map String.toList),
      (["Test Results", "Investigation Results"].map String.toList)] []
where go : List (List Str) → List Str → List Str
  | [], acc => acc
  | anchors :: ps, acc =>
    match sectionScan anchors colonGap
        (["Condition at Discharge", "Advice"].map String.toList) raw with
    | some cap =>
      let acc2 := acc ++ testFinds cap
      if acc2.isEmpty then go ps acc2 else acc2
    | none => go ps acc

/-- documentParser.js `parseDischargeDocument`.  (`patientDetails` is never
    written by the source and is omitted; `hasStructuredData` is computed
    from the three medication/diagnosis lists exactly as in the source.) -/
def parseDischargeDocument (rawText : Str) : ExtractedFacts :=
  let diagnoses := extractDiagnoses rawText
  let hospitalMedications :=
    match hospitalSection? rawText with
    | some txt => extractMedicationsFromText txt
    | none => []
  let dischargeMedications :=
    match dischargeSection? rawText with
    | some txt => extractMedicationsFromText txt
    | none => []
  let tests := extractTests rawText
  { diagnoses := diagnoses
    hospitalMedications := hospitalMedications
    dischargeMedications := dischargeMedications
    tests := tests
    hasStructuredData :=
      !diagnoses.isEmpty || !hospitalMedications.isEmpty ||
      !dischargeMedications.isEmpty }

/-! ## Claim C2: the sanitize-then-parse path can extract nothing -/

theorem mem_of_mem_takeWhile {p : Char → Bool} {c : Char} {s : Str}
    (h : c ∈ s.takeWhile p) : c ∈ s := by
  induction s with
  | nil => simpa [List.takeWhile] using h
  | cons a as ih =>
    by_cases ha : p a = true
    · rcases (by simpa [List.takeWhile, ha] using h : c = a ∨ c ∈ as.takeWhile p) with
        h1 | h1
      · simp [h1]
      · exact List.mem_cons_of_mem _ (ih h1)
    · simp only [Bool.not_eq_true] at ha
      simp [List.takeWhile, ha] at h

theorem mem_of_mem_drop {c : Char} {n : Nat} {s : Str} (h : c ∈ s.drop n) :
    c ∈ s := List.drop_subset n s h

theorem lastIndexOfCharAux_not_mem {t : Char} {s : Str} (hs : t ∉ s) (i : Nat) :
    lastIndexOfCharAux t s i none = none := by
  induction s generalizing i with
  | nil => rfl
  | cons c cs ih =>
    have hc : ¬c = t := fun h => hs (by simp [h])
    have hcs : t ∉ cs := fun h => hs (List.mem_cons_of_mem _ h)
    simp [lastIndexOfCharAux, hc, ih hcs]

theorem lastIndexOfChar?_not_mem {t : Char} {s : Str} (hs : t ∉ s) :
    lastIndexOfChar? s t = none := lastIndexOfCharAux_not_mem hs 0

theorem anchorAttempt_no_newline {gap : Char → Bool} {stops : List Str}
    {a s : Str} (hs : '\n' ∉ s) : anchorAttempt gap stops a s = none := by
  unfold anchorAttempt
  by_cases h : startsWithCI a s = true
  · have hrun : '\n' ∉ (s.drop a.length).takeWhile gap := fun hm =>
      hs (mem_of_mem_drop (mem_of_mem_takeWhile hm))
    simp [h, lastIndexOfChar?_not_mem hrun]
  · simp only [Bool.not_eq_true] at h
    simp [h]

theorem sectionScan_no_newline {anchors : List Str} {gap : Char → Bool}
    {stops : List Str} {s : Str} (hs : '\n' ∉ s) :
    sectionScan anchors gap stops s = none := by
  induction s with
  | nil =>
    simp only [sectionScan]
    rw [List.findSome?_eq_none]
    intro a _
    exact anchorAttempt_no_newline hs
  | cons c cs ih =>
    have hcs : '\n' ∉ cs := fun h => hs (List.mem_cons_of_mem _ h)
    have hall : List.findSome? (fun a => anchorAttempt gap stops a (c :: cs))
        anchors = none := by
      rw [List.findSome?_eq_none]
      intro a _
      exact anchorAttempt_no_newline hs
    simp only [sectionScan, hall, ih hcs]

theorem parseDischargeDocument_no_newline {s : Str} (hs : '\n' ∉ s) :
    parseDischargeDocument s =
      { diagnoses := [], hospitalMedications := [], dischargeMedications := [],
        tests := [], hasStructuredData := false } := by
  have hdiag : extractDiagnoses s = [] := by
    unfold extractDiagnoses
    simp [extractDiagnoses.go, sectionScan_no_newline hs, diagnosisPatterns]
  have hhosp : hospitalSection? s = none := by
    unfold hospitalSection?
    simp [sectionScan_no_newline hs]
  have hdisc : dischargeSection? s = none := by
    unfold dischargeSection?
    simp [sectionScan_no_newline hs]
  have htests : extractTests s = [] := by
    unfold extractTests
    simp [extractTests.go, sectionScan_no_newline hs]
  unfold parseDischargeDocument
  rw [hdiag, hhosp, hdisc, htests]
  rfl

/-- C2: for every input string, sanitizing (which collapses every whitespace
    run, newlines included, to a single space) and then parsing yields
    ExtractedFacts with all four lists empty and hasStructuredData false:
    every section-anchor pattern of the structural extractor demands a
    literal newline after the anchor, so the server's summarize path, which
    parses the sanitized text, can never extract anything. -/
theorem sanitize_then_parse_extracts_nothing (t : Str) :
    (parseDischargeDocument (sanitizeInput t)).diagnoses = [] ∧
    (parseDischargeDocument (sanitizeInput t)).hospitalMedications = [] ∧
    (parseDischargeDocument (sanitizeInput t)).dischargeMedications = [] ∧
    (parseDischargeDocument (sanitizeInput t)).tests = [] ∧
    (parseDischargeDocument (sanitizeInput t)).hasStructuredData = false := by
  rw [parseDischargeDocument_no_newline (sanitizeInput_no_newline t)]
  exact ⟨rfl, rfl, rfl, rfl, rfl⟩

/-! ## Claims C4 and C9: structured-data flag and continuation merging -/

/-- C4 counterexample: a document whose test section yields a result while
    the other three lists stay empty has a non-empty tests list but
    hasStructuredData = false, refuting the "any of the four lists"
    reading: the source computes the flag from three lists only. -/
theorem hasStructuredData_ignores_tests :
    (parseDischargeDocument "Investigations:\nHb - 12".toList).tests =
      ["Hb - 12".toList] ∧
    (parseDischargeDocument "Investigations:\nHb - 12".toList).diagnoses = [] ∧
    (parseDischargeDocument
      "Investigations:\nHb - 12".toList).hospitalMedications = [] ∧
    (parseDischargeDocument
      "Investigations:\nHb - 12".toList).dischargeMedications = [] ∧
    (parseDischargeDocument
      "Investigations:\nHb - 12".toList).hasStructuredData = false := by
  refine ⟨?_, ?_, ?_, ?_, ?_⟩ <;> rfl

/-- C4 (amended): hasStructuredData is true iff at least one of the three
    lists diagnoses, hospitalMedications, dischargeMedications is non-empty;
    the tests list does not participate. -/
theorem hasStructuredData_iff_three_lists (rawText : Str) :
    (parseDischargeDocument rawText).hasStructuredData =
      (!(parseDischargeDocument rawText).diagnoses.isEmpty ||
       !(parseDischargeDocument rawText).hospitalMedications.isEmpty ||
       !(parseDischargeDocument rawText).dischargeMedications.isEmpty) := rfl

theorem splitLinesGo_no_newline {b : Str} (hb : '\n' ∉ b) (acc : Str) :
    splitLines.go b acc = [acc.reverse ++ b] := by
  induction b generalizing acc with
  | nil => simp [splitLines.go]
  | cons c cs ih =>
    have hc : ¬c = '\n' := fun h => hb (by simp [h])
    have hcs : '\n' ∉ cs := fun h => hb (List.mem_cons_of_mem _ h)
    simp [splitLines.go, hc, ih hcs]

theorem splitLinesGo_append {a : Str} (ha : '\n' ∉ a) (s : Str) (acc : Str) :
    splitLines.go (a ++ s) acc = splitLines.go s (a.reverse ++ acc) := by
  induction a generalizing acc with
  | nil => simp
  | cons c cs ih =>
    have hc : ¬c = '\n' := fun h => ha (by simp [h])
    have hcs : '\n' ∉ cs := fun h => ha (List.mem_cons_of_mem _ h)
    simp [splitLines.go, hc, ih hcs]

theorem splitLines_two {a b : Str} (ha : '\n' ∉ a) (hb : '\n' ∉ b) :
    splitLines (a ++ '\n' :: b) = [a, b] := by
  unfold splitLines
  rw [splitLinesGo_append ha]
  simp [splitLines.go, splitLinesGo_no_newline hb]

/-- C9: a source text whose discharge-medication entry is split across two
    successive lines, the second beginning with a continuation marker,
    yields exactly one merged entry covering both lines, not two. -/
theorem continuation_lines_merge (l1 l2 : Str)
    (h1 : '\n' ∉ l1) (h2 : '\n' ∉ l2)
    (h3 : trimStr l1 = l1) (h4 : trimStr l2 = l2)
    (h5 : l1 ≠ []) (h6 : l2 ≠ [])
    (hm : isMedLine l1 = true) (hn : isNonMedLine l1 = false)
    (hc : beginsWithContinuationMarker l2 = true) :
    extractMedicationsFromText (l1 ++ '\n' :: l2) =
      [stripLeadNum l1 ++ ' ' :: l2] := by
  unfold extractMedicationsFromText
  rw [splitLines_two h1 h2]
  have hl : (([l1, l2].map trimStr).filter (fun l => !l.isEmpty)) = [l1, l2] := by
    simp [h3, h4]
    exact ⟨h5, h6⟩
  rw [hl]
  have hcont : isContinuation (stripLeadNum l1) l2 = true := by
    unfold isContinuation
    rw [hc]
    simp
  simp [medLoop, hm, hn, medAbsorb, hcont, h4]

/-- Witness for C9 at a concrete tapering-steroid prescription. -/
theorem continuation_lines_merge_witness :
    extractMedicationsFromText
      ("TAB PREDNISOLONE 10 MG 1-0-1 X 5 DAYS\nFOLLOWED BY TAB PREDNISOLONE 5 MG".toList) =
      ["TAB PREDNISOLONE 10 MG 1-0-1 X 5 DAYS FOLLOWED BY TAB PREDNISOLONE 5 MG".toList] := by
  have h := continuation_lines_merge
    "TAB PREDNISOLONE 10 MG 1-0-1 X 5 DAYS".toList
    "FOLLOWED BY TAB PREDNISOLONE 5 MG".toList
    (by decide) (by decide) (by decide) (by decide) (by decide) (by decide)
    (by decide) (by decide) (by decide)
  simpa using h

/-! ## documentParser.js : formatMedication / formatHospitalMedication

The anchored medication regex
`^(TYPE)\s+([A-Z0-9\s]+?)(?:\s+(DOSAGE))?(?:\s+(\d+-\d+-\d+))?(?:\s+X\s*(\d+)\s*(UNIT))?(?:\s+(.*?))?$/i`
backtracks across its groups; the continuation-passing combinators below
reproduce the engine's exploration order exactly: alternation left to right,
greedy repetition longest first, lazy repetition shortest first, optional
groups with the present branch first. -/

def upperC (c : Char) : Char :=
  if asciiLower c then Char.ofNat (c.toNat - 32) else c

def toUpper (s : Str) : Str := s.map upperC

/-- Ordered alternation with backtracking into the continuation. -/
def altTryCI {α : Type} (pats : List Str) (st : PSt) (k : PSt → Option α) :
    Option α :=
  match pats with
  | [] => none
  | p :: ps =>
    match (eatLitCI p st).bind k with
    | some r => some r
    | none => altTryCI ps st k

/-- Greedy `p+` with backtracking: longest run first, down to one char. -/
def runPlusGreedy {α : Type} (p : Char → Bool) (st : PSt)
    (k : PSt → Option α) : Option α :=
  go (st.1.takeWhile p).length
where go : Nat → Option α
  | 0 => none
  | n + 1 =>
    match k (st.1.drop (n + 1), st.2 + (n + 1)) with
    | some r => some r
    | none => go n

/-- Lazy `cls+?`: shortest slice first, growing while inside the class.
    The continuation receives the captured slice. -/
def lazyClass1 {α : Type} (cls : Char → Bool) (st : PSt)
    (k : Str → PSt → Option α) : Option α :=
  go [] st.1 st.2
where go (accRev : Str) : Str → Nat → Option α
  | [], _ => none
  | c :: cs, n =>
    if cls c then
      match k (accRev.reverse ++ [c]) (cs, n + 1) with
      | some r => some r
      | none => go (c :: accRev) cs (n + 1)
    else none

/-- Optional group `(?:...)?`: present branch first, then absent. -/
def optTry {α β : Type} (grp : PSt → (β → PSt → Option α) → Option α)
    (st : PSt) (k : Option β → PSt → Option α) : Option α :=
  match grp st (fun b st2 => k (some b) st2) with
  | some r => some r
  | none => k none st

/-- Slice of the subject string by consumed-position interval. -/
def sliceOf (s : Str) (a b : Nat) : Str := (s.drop a).take (b - a)

/-- `\s+(\d+(?:\.?\d+)?\s*(?:MG|ML|GM|MCG|G|%))`: the dosage group.  The
    capture is the original slice from the first digit to the unit. -/
def dosageGrp {α : Type} (s0 : Str) (st : PSt) (k : Str → PSt → Option α) :
    Option α :=
  runPlusGreedy jsWs st fun stw =>
    runPlusGreedy jsDigit stw fun std =>
      optTry (fun st2 k2 =>
          match (eatChar '.' st2) with
          | some st3 => runPlusGreedy jsDigit st3 (fun st4 => k2 () st4)
          | none => runPlusGreedy jsDigit st2 (fun st4 => k2 () st4))
        std fun _ stf =>
          let sts := eatRun jsWs stf
          altTryCI (["MG", "ML", "GM", "MCG", "G", "%"].map String.toList) sts
            (fun stu => k (sliceOf s0 stw.2 stu.2) stu)

/-- `\s+(\d+-\d+-\d+)`: the timing group. -/
def timingGrp {α : Type} (s0 : Str) (st : PSt) (k : Str → PSt → Option α) :
    Option α :=
  runPlusGreedy jsWs st fun stw =>
    runPlusGreedy jsDigit stw fun st1 =>
      match eatChar '-' st1 with
      | none => none
      | some st2 =>
        runPlusGreedy jsDigit st2 fun st3 =>
          match eatChar '-' st3 with
          | none => none
          | some st4 =>
            runPlusGreedy jsDigit st4 fun st5 =>
              k (sliceOf s0 stw.2 st5.2) st5

/-- `\s+X\s*(\d+)\s*(?:DAYS?|DAY|WKS?|WEEKS?|MONTHS?)`: the duration group;
    only the digits are captured. -/
def durationGrp {α : Type} (s0 : Str) (st : PSt) (k : Str → PSt → Option α) :
    Option α :=
  runPlusGreedy jsWs st fun stw =>
    match eatLitCI "X".toList stw with
    | none => none
    | some stx =>
      let stx := eatRun jsWs stx
      runPlusGreedy jsDigit stx fun std =>
        let cap := sliceOf s0 stx.2 std.2
        let sts := eatRun jsWs std
        altTryCI (["DAYS", "DAY", "DAY", "WKS", "WK", "WEEKS", "WEEK",
                   "MONTHS", "MONTH"].map String.toList) sts
          (fun stu => k cap stu)

/-- A character matched by `.` (no dotAll flag): not a line terminator. -/
def jsDot (c : Char) : Bool :=
  !(c = '\n' || c = '\r' || c = Char.ofNat 0x2028 || c = Char.ofNat 0x2029)

/-- `(?:\s+(.*?))?$`: trailing extra group then end anchor.  The lazy `.*?`
    must reach the end of input, so it matches exactly the remainder when
    that remainder has no line terminator. -/
def extraEndGrp {α : Type} (st : PSt) (k : Option Str → Option α) : Option α :=
  match
    runPlusGreedy jsWs st (fun stw =>
      if stw.1.all jsDot then k (some stw.1) else none) with
  | some r => some r
  | none => if st.1.isEmpty then k none else none

/-- Result of the big anchored medication regex: captures 1-6. -/
structure MedParts where
  type : Str
  name : Str
  dosage : Option Str
  timing : Option Str
  duration : Option Str
  extra : Option Str
deriving Repr

/-- Full backtracking match of the anchored medication regex. -/
def matchMedParts (s : Str) : Option MedParts :=
  altTryCI (["TAB", "CAP", "INJ", "SYR", "SUSP", "TABLET", "CAPSULE",
             "INJECTION", "SYRUP"].map String.toList) (s, 0) fun stT =>
    let typeCap := s.take stT.2
    runPlusGreedy jsWs stT fun stW =>
      lazyClass1 (fun c => asciiLetter c || jsDigit c || jsWs c) stW
        fun nameCap stN =>
          optTry (dosageGrp s) stN fun dosage st1 =>
            optTry (timingGrp s) st1 fun timing st2 =>
              optTry (durationGrp s) st2 fun duration st3 =>
                extraEndGrp st3 fun extra =>
                  some { type := typeCap, name := nameCap, dosage := dosage,
                         timing := timing, duration := duration, extra := extra }

def natOfDigits (s : Str) : Nat :=
  s.foldl (fun a c => a * 10 + (c.toNat - 48)) 0

/-- Decimal rendering of a number interpolated into a template string. -/
def natToStr (n : Nat) : Str := Nat.toDigits 10 n

def splitOnChar (sep : Char) (s : Str) : List Str :=
  go s []
where go : Str → Str → List Str
  | [], acc => [acc.reverse]
  | c :: cs, acc => if c = sep then acc.reverse :: go cs [] else go cs (c :: acc)

/-- `tablet${n > 1 ? 's' : ''}`. -/
def tabletWord (n : Nat) : Str :=
  "tablet".toList ++ (if 1 < n then ['s'] else [])

/-- The timing-code explanation if-chain of formatMedication. -/
def timingExplanation (morning afternoon night : Nat) : Str :=
  if 0 < morning ∧ afternoon = 0 ∧ night = 0 then
    "take ".toList ++ natToStr morning ++ ' ' :: tabletWord morning ++
      " in the morning".toList
  else if morning = 0 ∧ afternoon = 0 ∧ 0 < night then
    "take ".toList ++ natToStr night ++ ' ' :: tabletWord night ++
      " at night".toList
  else if 0 < morning ∧ afternoon = 0 ∧ 0 < night then
    "take ".toList ++ natToStr morning ++ ' ' :: tabletWord morning ++
      " in the morning and ".toList ++ natToStr night ++ ' ' ::
      tabletWord night ++ " at night".toList
  else if 0 < morning ∧ 0 < afternoon ∧ 0 < night then
    if morning = afternoon ∧ afternoon = night then
      "take ".toList ++ natToStr morning ++ ' ' :: tabletWord morning ++
        " three times a day (morning, afternoon, and night)".toList
    else
      "take ".toList ++ natToStr morning ++
        " in morning, ".toList ++ natToStr afternoon ++
        " in afternoon, ".toList ++ natToStr night ++ " at night".toList
  else if morning = 0 ∧ 0 < afternoon ∧ night = 0 then
    "take ".toList ++ natToStr afternoon ++ ' ' :: tabletWord afternoon ++
      " in the afternoon".toList
  else if morning = 0 ∧ 0 < afternoon ∧ 0 < night then
    "take ".toList ++ natToStr afternoon ++ ' ' :: tabletWord afternoon ++
      " in the afternoon and ".toList ++ natToStr night ++ ' ' ::
      tabletWord night ++ " at night".toList
  else if 0 < morning ∧ 0 < afternoon ∧ night = 0 then
    "take ".toList ++ natToStr morning ++ ' ' :: tabletWord morning ++
      " in the morning and ".toList ++ natToStr afternoon ++ ' ' ::
      tabletWord afternoon ++ " in the afternoon".toList
  else []

/-- `^(HOME\s+)?OXYGEN\s+(SUPPORT|THERAPY)\s*` tail after the optional
    HOME prefix. -/
def oxygenTail (st : PSt) : Option PSt := do
  let st ← eatLitCI "OXYGEN".toList st
  let st ← eatRun1 jsWs st
  let st ← eatAltCI (["SUPPORT", "THERAPY"].map String.toList) st
  pure (eatRun jsWs st)

/-- `medText.replace(/^(HOME\s+)?OXYGEN\s+(SUPPORT|THERAPY)\s*/i, '')`. -/
def oxygenStrip (s : Str) : Str :=
  match (do
    let st ← eatLitCI "HOME".toList (s, 0)
    let st ← eatRun1 jsWs st
    oxygenTail st) with
  | some st => st.1
  | none =>
    match oxygenTail (s, 0) with
    | some st => st.1
    | none => s

/-- `medText.replace(/NEBULI[SZ]ATION/i, '')` (non-global: first match). -/
def nebulizationStrip (s : Str) : Str :=
  replFirst (fun t => (do
    let st ← eatLitCI "NEBULI".toList (t, 0)
    let st ← eatCharP (fun c => charEqCI c 'S' || charEqCI c 'Z') st
    let st ← eatLitCI "ATION".toList st
    pure (st.2, ([] : Str))) ) s

/-- JavaScript string truthiness for an optional capture: `undefined` and
    the empty string are both falsy. -/
def capTruthy : Option Str → Bool
  | some e => !e.isEmpty
  | none => false

/-- documentParser.js `formatMedication`. -/
def formatMedication (medText : Str) : Str :=
  if (["HOME OXYGEN", "OXYGEN SUPPORT", "OXYGEN THERAPY"].map String.toList).any
      (containsSubCI medText) then
    let details := trimStr (oxygenStrip medText)
    "• **HOME OXYGEN SUPPORT**\n  - ".toList ++
      (if details.isEmpty then "As prescribed".toList else details) ++ ['\n']
  else if (scanFirst (fun t => (do
      let st ← eatLitCI "NEBULI".toList (t, 0)
      let st ← eatCharP (fun c => charEqCI c 'S' || charEqCI c 'Z') st
      let st ← eatLitCI "ATION".toList st
      pure st.2)) medText).isSome then
    let rest := trimStr (nebulizationStrip medText)
    "• **Nebulization**\n  - ".toList ++
      (if rest.isEmpty then "As prescribed".toList else rest) ++ ['\n']
  else
    match matchMedParts medText with
    | none => "• ".toList ++ medText ++ ['\n']
    | some parts =>
      let formatted := "• **".toList ++ toUpper parts.type ++ ' ' ::
        trimStr parts.name
      let formatted := formatted ++
        (match parts.dosage with
         | some d => ' ' :: toUpper d ++ "**".toList
         | none => "**".toList)
      let formatted := formatted ++ ['\n']
      let formatted := formatted ++
        (match parts.timing with
         | some timing =>
           match splitOnChar '-' timing with
           | [m, a, n] =>
             "  - Timing: **".toList ++ timing ++ "** (".toList ++
               timingExplanation (natOfDigits m) (natOfDigits a)
                 (natOfDigits n) ++ ")\n".toList
           | _ => []
         | none => [])
      let formatted := formatted ++
        (match parts.duration with
         | some duration =>
           "  - Duration: **".toList ++ duration ++ " days**".toList ++
             (if capTruthy parts.extra &&
                 containsSubCI (parts.extra.getD []) "AND STOP".toList then
                ", then **STOP completely**".toList
              else []) ++ ['\n']
         | none => [])
      let formatted := formatted ++
        (if capTruthy parts.extra then
           let e := parts.extra.getD []
           if containsSubCI e "FOLLOWED BY".toList then
             "  - **Note:** ".toList ++ trimStr e ++ ['\n']
           else if !containsSubCI e "AND STOP".toList then
             "  - ".toList ++ trimStr e ++ ['\n']
           else []
         else [])
      formatted

/-- documentParser.js `formatHospitalMedication` (both branches of the
    source emit the same dash-prefixed line). -/
def formatHospitalMedication (medText : Str) : Str :=
  let cleaned := trimStr medText
  if (["INJ", "TAB", "CAP", "SYR", "NEBULI"].map String.toList).any
      (fun p => startsWithCI p cleaned) then
    '-' :: ' ' :: cleaned
  else
    '-' :: ' ' :: cleaned

/-- Leftmost case-insensitive `ANCHOR([\s\S]*?)(?=STOP|$)` capture, used by
    mergeWithAISummary on the narrative summary. -/
def anchoredCapture (anchor : Str) (stops : List Str) : Str → Option Str
  | [] => if startsWithCI anchor [] then some (captureUntil stops []) else none
  | s@(_ :: cs) =>
    if startsWithCI anchor s then
      some (captureUntil stops (s.drop anchor.length))
    else anchoredCapture anchor stops cs

/-- The five narrative-section captures of mergeWithAISummary, already
    wrapped with their headers as the source appends them (an unmatched
    section contributes nothing). -/
def mergeAIPrefix (aiSummary : Str) : Str :=
  (match anchoredCapture "**PATIENT HISTORY**".toList
      ["**CONDITION WHEN ADMITTED**".toList] aiSummary with
   | some m => "**PATIENT HISTORY**".toList ++ trimStr m ++ "\n\n".toList
   | none => []) ++
  (match anchoredCapture "**CONDITION WHEN ADMITTED**".toList
      ["**DIAGNOSIS".toList] aiSummary with
   | some m => "**CONDITION WHEN ADMITTED**".toList ++ trimStr m ++ "\n\n".toList
   | none => [])

def mergeCondDischarge (aiSummary : Str) : Str :=
  match anchoredCapture "**CONDITION AT DISCHARGE**".toList
      ["**MEDICATIONS".toList] aiSummary with
  | some m => "**CONDITION AT DISCHARGE**".toList ++ trimStr m ++ "\n\n".toList
  | none => []

def mergeTail (aiSummary : Str) : Str :=
  (match anchoredCapture "**FOLLOW-UP AND FUTURE CARE**".toList
      ["**ADDITIONAL".toList] aiSummary with
   | some m => "**FOLLOW-UP AND FUTURE CARE**".toList ++ trimStr m ++ "\n\n".toList
   | none => []) ++
  (match anchoredCapture "**ADDITIONAL INFORMATION**".toList
      ["**FINAL CHECKLIST".toList] aiSummary with
   | some m => "**ADDITIONAL INFORMATION**".toList ++ trimStr m
   | none => [])

def diagTreatHeader : Str := "**DIAGNOSIS AND TREATMENT GIVEN**\n\n".toList

def medsFollowHeader : Str :=
  "**MEDICATIONS TO FOLLOW AFTER DISCHARGE**\n\n".toList

def noMedsSubstitute : Str :=
  "No specific medications prescribed for home use.\n".toList

/-- One `result += \`- ${x}\\n\`` emission (diagnoses and tests loops). -/
def dashLineOut (x : Str) : Str := '-' :: ' ' :: x ++ ['\n']

/-- One `result += \`${formatHospitalMedication(med)}\\n\`` emission. -/
def hospLineOut (med : Str) : Str := formatHospitalMedication med ++ ['\n']

/-- One `result += \`${formatMedication(med)}\\n\`` emission. -/
def dischLineOut (med : Str) : Str := formatMedication med ++ ['\n']

def mergeDiagBlock (parsedData : ExtractedFacts) : Str :=
  if !parsedData.diagnoses.isEmpty then
    "DIAGNOSES:\n".toList ++
      parsedData.diagnoses.foldl (fun acc x => acc ++ dashLineOut x) [] ++ ['\n']
  else []

def mergeTestsBlock (parsedData : ExtractedFacts) : Str :=
  if !parsedData.tests.isEmpty then
    "TESTS & PROCEDURES:\n".toList ++
      parsedData.tests.foldl (fun acc x => acc ++ dashLineOut x) [] ++ ['\n']
  else []

def mergeHospBlock (parsedData : ExtractedFacts) : Str :=
  if !parsedData.hospitalMedications.isEmpty then
    "HOSPITAL MEDICATIONS (Given During Stay):\n".toList ++
      parsedData.hospitalMedications.foldl
        (fun acc x => acc ++ hospLineOut x) [] ++ ['\n']
  else []

def mergeMedsBody (parsedData : ExtractedFacts) : Str :=
  if !parsedData.dischargeMedications.isEmpty then
    parsedData.dischargeMedications.foldl (fun acc x => acc ++ dischLineOut x) []
  else noMedsSubstitute

/-- documentParser.js `mergeWithAISummary`: narrative sections are copied
    from the model summary, the clinical sections are rebuilt from the
    parsed data, in the source's fixed append order, and the result is
    trimmed. -/
def mergeWithAISummary (aiSummary : Str) (parsedData : ExtractedFacts) : Str :=
  if !parsedData.hasStructuredData then aiSummary
  else
    trimStr
      (mergeAIPrefix aiSummary ++ diagTreatHeader ++
       mergeDiagBlock parsedData ++ mergeTestsBlock parsedData ++
       mergeHospBlock parsedData ++ mergeCondDischarge aiSummary ++
       medsFollowHeader ++ mergeMedsBody parsedData ++ ['\n'] ++
       mergeTail aiSummary)

/-! ## Substring-through-trim machinery for the Merger claims -/

def nonWsMem (s : Str) : Prop := ∃ c ∈ s, jsWs c = false

theorem startsWith_append_self (pat t : Str) :
    startsWith pat (pat ++ t) = true := by
  induction pat with
  | nil => rfl
  | cons p ps ih => simp [startsWith, ih]

theorem containsSub_nil_pat (s : Str) : containsSub s [] = true := by
  cases s <;> simp [containsSub, startsWith]

theorem containsSub_prefix_pat (pat v : Str) :
    containsSub (pat ++ v) pat = true := by
  cases pat with
  | nil => exact containsSub_nil_pat v
  | cons p ps =>
    have h : startsWith (p :: ps) ((p :: ps) ++ v) = true :=
      startsWith_append_self (p :: ps) v
    show containsSub (p :: (ps ++ v)) (p :: ps) = true
    simp only [containsSub]
    rw [show p :: (ps ++ v) = (p :: ps) ++ v from rfl, h]
    simp

theorem containsSub_of_parts (u pat v : Str) :
    containsSub (u ++ pat ++ v) pat = true := by
  induction u with
  | nil => simpa using containsSub_prefix_pat pat v
  | cons c u' ih =>
    show containsSub (c :: ((u' ++ pat) ++ v)) pat = true
    have he : containsSub (c :: ((u' ++ pat) ++ v)) pat =
        (startsWith pat (c :: ((u' ++ pat) ++ v)) ||
         containsSub ((u' ++ pat) ++ v) pat) := rfl
    rw [he, ih]
    simp

theorem dropWhile_append_nonWsMem {a : Str} (h : nonWsMem a) (b : Str) :
    (a ++ b).dropWhile jsWs = a.dropWhile jsWs ++ b := by
  induction a with
  | nil => rcases h with ⟨c, hc, _⟩; simp at hc
  | cons x a' ih =>
    by_cases hx : jsWs x = true
    · have h' : nonWsMem a' := by
        rcases h with ⟨c, hc, hw⟩
        rcases List.mem_cons.mp hc with rfl | hmem
        · rw [hx] at hw; simp at hw
        · exact ⟨c, hmem, hw⟩
      simp [List.dropWhile, hx, ih h']
    · simp only [Bool.not_eq_true] at hx
      simp [List.dropWhile, hx]

theorem dropWhile_append_headNonWs {t : Str}
    (h : ∀ c, t.head? = some c → jsWs c = false) (u : Str) :
    (u ++ t).dropWhile jsWs = u.dropWhile jsWs ++ t := by
  induction u with
  | nil =>
    cases t with
    | nil => rfl
    | cons c cs => simp [List.dropWhile, h c rfl]
  | cons x u' ih =>
    by_cases hx : jsWs x = true
    · simp [List.dropWhile, hx, ih]
    · simp only [Bool.not_eq_true] at hx
      simp [List.dropWhile, hx]

def occursWithLeft (s pat : Str) : Prop :=
  ∃ u v, s = u ++ pat ++ v ∧ nonWsMem u

theorem occursWithLeft_append_left {t pat : Str} (h : occursWithLeft t pat)
    (s : Str) : occursWithLeft (s ++ t) pat := by
  rcases h with ⟨u, v, rfl, hu⟩
  rcases hu with ⟨c, hc, hw⟩
  exact ⟨s ++ u, v, by simp, ⟨c, by simp [hc], hw⟩⟩

theorem occursWithLeft_append_right {s pat : Str} (h : occursWithLeft s pat)
    (t : Str) : occursWithLeft (s ++ t) pat := by
  rcases h with ⟨u, v, rfl, hu⟩
  exact ⟨u, v ++ t, by simp, hu⟩

theorem containsSub_trim_of_occL_nonWsRight {s pat t : Str}
    (h : occursWithLeft s pat) (ht : nonWsMem t) :
    containsSub (trimStr (s ++ t)) pat = true := by
  rcases h with ⟨u, v, rfl, hu⟩
  have htr : nonWsMem t.reverse := by
    rcases ht with ⟨c, hc, hw⟩
    exact ⟨c, List.mem_reverse.mpr hc, hw⟩
  have key : trimStr ((u ++ pat ++ v) ++ t) =
      u.dropWhile jsWs ++ pat ++
        (v ++ (t.reverse.dropWhile jsWs).reverse) := by
    unfold trimStr
    rw [show (u ++ pat ++ v) ++ t = u ++ ((pat ++ v) ++ t) by simp]
    rw [dropWhile_append_nonWsMem hu]
    rw [show (u.dropWhile jsWs ++ ((pat ++ v) ++ t)).reverse
        = t.reverse ++ ((pat ++ v).reverse ++ (u.dropWhile jsWs).reverse) by
      simp [List.reverse_append, List.append_assoc]]
    rw [dropWhile_append_nonWsMem htr]
    simp [List.reverse_append, List.append_assoc]
  rw [key]
  exact containsSub_of_parts _ _ _

theorem containsSub_trim_of_occL_lastNonWs {s pat : Str}
    (h : occursWithLeft s pat)
    (hl : ∀ c, pat.reverse.head? = some c → jsWs c = false) :
    containsSub (trimStr s) pat = true := by
  rcases hpr : pat.reverse with _ | ⟨c0, p0⟩
  · have : pat = [] := by
      have := congrArg List.reverse hpr
      simpa using this
    rw [this]
    exact containsSub_nil_pat _
  have hc0 : jsWs c0 = false := hl c0 (by rw [hpr]; rfl)
  have hrev : pat.reverse = c0 :: p0 := hpr
  rcases h with ⟨u, v, rfl, hu⟩
  have hhead : ∀ c,
      (pat.reverse ++ (u.dropWhile jsWs).reverse).head? = some c →
      jsWs c = false := by
    intro c hc
    rw [hrev] at hc
    have : c0 = c := by simpa using hc
    rw [← this]
    exact hc0
  have key : trimStr (u ++ pat ++ v) =
      u.dropWhile jsWs ++ pat ++ (v.reverse.dropWhile jsWs).reverse := by
    unfold trimStr
    rw [show u ++ pat ++ v = u ++ (pat ++ v) by simp]
    rw [dropWhile_append_nonWsMem hu]
    rw [show (u.dropWhile jsWs ++ (pat ++ v)).reverse
        = v.reverse ++ (pat.reverse ++ (u.dropWhile jsWs).reverse) by
      simp [List.reverse_append, List.append_assoc]]
    rw [dropWhile_append_headNonWs hhead]
    simp [List.reverse_append, List.append_assoc]
  rw [key]
  exact containsSub_of_parts _ _ _

theorem foldl_emit_shift (f : Str → Str) (g : List Str) (a : Str) :
    g.foldl (fun acc x => acc ++ f x) a =
      a ++ g.foldl (fun acc x => acc ++ f x) [] := by
  induction g generalizing a with
  | nil => simp
  | cons x g' ih =>
    show g'.foldl _ (a ++ f x) = a ++ g'.foldl _ ([] ++ f x)
    rw [ih (a ++ f x), ih ([] ++ f x)]
    simp only [List.nil_append, List.append_assoc]

theorem foldl_emit_decomp (f : Str → Str) {d : Str} {g : List Str}
    (hd : d ∈ g) :
    ∃ A B, g.foldl (fun acc x => acc ++ f x) [] = A ++ f d ++ B := by
  induction g with
  | nil => simp at hd
  | cons x g' ih =>
    rcases List.mem_cons.mp hd with rfl | hmem
    · refine ⟨[], g'.foldl (fun acc x => acc ++ f x) [], ?_⟩
      show g'.foldl _ ([] ++ f d) = [] ++ f d ++ _
      rw [foldl_emit_shift]
    · rcases ih hmem with ⟨A, B, hAB⟩
      refine ⟨f x ++ A, B, ?_⟩
      show g'.foldl _ ([] ++ f x) = f x ++ A ++ f d ++ B
      rw [foldl_emit_shift]
      simp [hAB, List.append_assoc]

/-! ## Claims C8, C3, C1: the Merger -/

/-- C8: with hasStructuredData false the Merger returns the model narrative
    completely unchanged (full fallback to narrative sections). -/
theorem merge_fallback_identity (aiSummary : Str) (parsedData : ExtractedFacts)
    (hf : parsedData.hasStructuredData = false) :
    mergeWithAISummary aiSummary parsedData = aiSummary := by
  unfold mergeWithAISummary
  rw [hf]
  rfl

/-- Witness for C8 on a concrete summary and an empty parse. -/
theorem merge_fallback_identity_witness :
    mergeWithAISummary "Some narrative.".toList
      { diagnoses := [], hospitalMedications := [], dischargeMedications := [],
        tests := [], hasStructuredData := false } = "Some narrative.".toList :=
  merge_fallback_identity _ _ rfl

/-- Selection lemma: with structured data present the Merger emits the fixed
    block chain and trims it. -/
theorem merge_structured_eq (aiSummary : Str) (parsedData : ExtractedFacts)
    (hf : parsedData.hasStructuredData = true) :
    mergeWithAISummary aiSummary parsedData =
      trimStr
        (mergeAIPrefix aiSummary ++ diagTreatHeader ++
         mergeDiagBlock parsedData ++ mergeTestsBlock parsedData ++
         mergeHospBlock parsedData ++ mergeCondDischarge aiSummary ++
         medsFollowHeader ++ mergeMedsBody parsedData ++ ['\n'] ++
         mergeTail aiSummary) := by
  unfold mergeWithAISummary
  rw [hf]
  rfl

theorem isEmpty_false_of_mem {x : Str} {g : List Str} (h : x ∈ g) :
    g.isEmpty = false := by
  cases g
  · simp at h
  · rfl

theorem formatHospitalMedication_eq (m : Str) :
    formatHospitalMedication m = '-' :: ' ' :: trimStr m := by
  unfold formatHospitalMedication
  by_cases h : (["INJ", "TAB", "CAP", "SYR", "NEBULI"].map String.toList).any
      (fun p => startsWithCI p (trimStr m)) = true
  · simp [h]
  · simp only [Bool.not_eq_true] at h
    simp [h]

theorem occL_mergeDiagBlock {parsedData : ExtractedFacts} {d : Str}
    (hd : d ∈ parsedData.diagnoses) :
    occursWithLeft (mergeDiagBlock parsedData) d := by
  rcases foldl_emit_decomp dashLineOut hd with ⟨A, B, hAB⟩
  unfold mergeDiagBlock
  rw [isEmpty_false_of_mem hd]
  simp only [Bool.not_false, if_true]
  rw [hAB]
  refine ⟨"DIAGNOSES:\n".toList ++ A ++ ['-', ' '], '\n' :: (B ++ ['\n']),
    ?_, ⟨'-', by simp, by decide⟩⟩
  simp [dashLineOut, List.append_assoc]

theorem occL_mergeTestsBlock {parsedData : ExtractedFacts} {t : Str}
    (ht : t ∈ parsedData.tests) :
    occursWithLeft (mergeTestsBlock parsedData) t := by
  rcases foldl_emit_decomp dashLineOut ht with ⟨A, B, hAB⟩
  unfold mergeTestsBlock
  rw [isEmpty_false_of_mem ht]
  simp only [Bool.not_false, if_true]
  rw [hAB]
  refine ⟨"TESTS & PROCEDURES:\n".toList ++ A ++ ['-', ' '],
    '\n' :: (B ++ ['\n']), ?_, ⟨'-', by simp, by decide⟩⟩
  simp [dashLineOut, List.append_assoc]

theorem occL_mergeHospBlock {parsedData : ExtractedFacts} {m : Str}
    (hm : m ∈ parsedData.hospitalMedications) :
    occursWithLeft (mergeHospBlock parsedData) (trimStr m) := by
  rcases foldl_emit_decomp hospLineOut hm with ⟨A, B, hAB⟩
  unfold mergeHospBlock
  rw [isEmpty_false_of_mem hm]
  simp only [Bool.not_false, if_true]
  rw [hAB]
  refine ⟨"HOSPITAL MEDICATIONS (Given During Stay):\n".toList ++ A ++
    ['-', ' '], '\n' :: (B ++ ['\n']), ?_, ⟨'-', by simp, by decide⟩⟩
  simp [hospLineOut, formatHospitalMedication_eq, List.append_assoc]

/-- C3 counterexample: with structured data present but no extracted
    discharge medications, the Merger fills the medications section with
    its fixed substitute line and discards the narrative's own medications
    section (here containing TAB FOO), refuting the claimed fallback. -/
theorem merge_empty_discharge_no_fallback_cex :
    containsSub
      (mergeWithAISummary
        "**MEDICATIONS TO FOLLOW AFTER DISCHARGE**\nTAB FOO 1-0-1".toList
        { diagnoses := ["Fever".toList], hospitalMedications := [],
          dischargeMedications := [], tests := [],
          hasStructuredData := true })
      "No specific medications prescribed for home use.".toList = true ∧
    containsSub
      (mergeWithAISummary
        "**MEDICATIONS TO FOLLOW AFTER DISCHARGE**\nTAB FOO 1-0-1".toList
        { diagnoses := ["Fever".toList], hospitalMedications := [],
          dischargeMedications := [], tests := [],
          hasStructuredData := true })
      "TAB FOO".toList = false := by
  refine ⟨?_, ?_⟩ <;> decide

/-- C3 (amended): with structured data present and no extracted discharge
    medications, the MEDICATIONS TO FOLLOW AFTER DISCHARGE section is
    populated with the fixed substitute line, not from the narrative. -/
theorem merge_empty_discharge_substitute (aiSummary : Str)
    (parsedData : ExtractedFacts) (hf : parsedData.hasStructuredData = true)
    (hd : parsedData.dischargeMedications = []) :
    containsSub (mergeWithAISummary aiSummary parsedData)
      "No specific medications prescribed for home use.".toList = true := by
  rw [merge_structured_eq aiSummary parsedData hf]
  have hbody : mergeMedsBody parsedData = noMedsSubstitute := by
    unfold mergeMedsBody
    rw [hd]
    rfl
  rw [hbody]
  apply containsSub_trim_of_occL_lastNonWs
  · refine ⟨mergeAIPrefix aiSummary ++ diagTreatHeader ++
      mergeDiagBlock parsedData ++ mergeTestsBlock parsedData ++
      mergeHospBlock parsedData ++ mergeCondDischarge aiSummary ++
      medsFollowHeader,
      '\n' :: ('\n' :: mergeTail aiSummary), ?_,
      ⟨'*', List.mem_append.mpr (Or.inr (by decide)), by decide⟩⟩
    rw [show noMedsSubstitute =
      "No specific medications prescribed for home use.".toList ++ ['\n']
      from rfl]
    simp [List.append_assoc]
  · intro c hc
    have he :
        ("No specific medications prescribed for home use.".toList).reverse.head?
          = some '.' := by decide
    rw [he] at hc
    cases hc
    decide

/-- Witness for C3 (amended) at a concrete parse and narrative. -/
theorem merge_empty_discharge_substitute_witness :
    containsSub
      (mergeWithAISummary
        "**MEDICATIONS TO FOLLOW AFTER DISCHARGE**\nTAB BAR 0-0-1".toList
        { diagnoses := ["Viral fever".toList], hospitalMedications := [],
          dischargeMedications := [], tests := [],
          hasStructuredData := true })
      "No specific medications prescribed for home use.".toList = true :=
  merge_empty_discharge_substitute _ _ rfl rfl

/-- C1 counterexample: a discharge-medication string is re-rendered by
    formatMedication (here the oxygen branch reorders its components), so
    the raw string does not appear verbatim in the Merger's output. -/
theorem merger_rewrites_discharge_med_cex :
    containsSub
      (mergeWithAISummary []
        { diagnoses := [], hospitalMedications := [],
          dischargeMedications := ["HOME OXYGEN SUPPORT 2 LT/MIN".toList],
          tests := [], hasStructuredData := true })
      "HOME OXYGEN SUPPORT 2 LT/MIN".toList = false := by decide

/-- C1 (amended): with hasStructuredData true the Merger's output contains
    every diagnoses string and every tests string verbatim and every
    hospitalMedications string after trimming; dischargeMedications entries
    are re-rendered through formatMedication and need not appear verbatim. -/
theorem merger_preserves_extracted_lists (aiSummary : Str)
    (parsedData : ExtractedFacts)
    (hf : parsedData.hasStructuredData = true) :
    (∀ d ∈ parsedData.diagnoses,
      containsSub (mergeWithAISummary aiSummary parsedData) d = true) ∧
    (∀ t ∈ parsedData.tests,
      containsSub (mergeWithAISummary aiSummary parsedData) t = true) ∧
    (∀ m ∈ parsedData.hospitalMedications,
      containsSub (mergeWithAISummary aiSummary parsedData) (trimStr m) =
        true) := by
  have hmh : nonWsMem (medsFollowHeader ++ (mergeMedsBody parsedData ++
      (['\n'] ++ mergeTail aiSummary))) :=
    ⟨'*', List.mem_append.mpr (Or.inl (by decide)), by decide⟩
  refine ⟨?_, ?_, ?_⟩
  · intro d hd
    rw [merge_structured_eq aiSummary parsedData hf]
    rw [show mergeAIPrefix aiSummary ++ diagTreatHeader ++
        mergeDiagBlock parsedData ++ mergeTestsBlock parsedData ++
        mergeHospBlock parsedData ++ mergeCondDischarge aiSummary ++
        medsFollowHeader ++ mergeMedsBody parsedData ++ ['\n'] ++
        mergeTail aiSummary =
      (mergeAIPrefix aiSummary ++ diagTreatHeader ++
        mergeDiagBlock parsedData ++ mergeTestsBlock parsedData ++
        mergeHospBlock parsedData ++ mergeCondDischarge aiSummary) ++
      (medsFollowHeader ++ (mergeMedsBody parsedData ++
        (['\n'] ++ mergeTail aiSummary))) by simp [List.append_assoc]]
    refine containsSub_trim_of_occL_nonWsRight ?_ hmh
    refine occursWithLeft_append_right (occursWithLeft_append_right
      (occursWithLeft_append_right (occursWithLeft_append_left
        (occL_mergeDiagBlock hd) _) _) _) _
  · intro t ht
    rw [merge_structured_eq aiSummary parsedData hf]
    rw [show mergeAIPrefix aiSummary ++ diagTreatHeader ++
        mergeDiagBlock parsedData ++ mergeTestsBlock parsedData ++
        mergeHospBlock parsedData ++ mergeCondDischarge aiSummary ++
        medsFollowHeader ++ mergeMedsBody parsedData ++ ['\n'] ++
        mergeTail aiSummary =
      (mergeAIPrefix aiSummary ++ diagTreatHeader ++
        mergeDiagBlock parsedData ++ mergeTestsBlock parsedData ++
        mergeHospBlock parsedData ++ mergeCondDischarge aiSummary) ++
      (medsFollowHeader ++ (mergeMedsBody parsedData ++
        (['\n'] ++ mergeTail aiSummary))) by simp [List.append_assoc]]
    refine containsSub_trim_of_occL_nonWsRight ?_ hmh
    refine occursWithLeft_append_right (occursWithLeft_append_right
      (occursWithLeft_append_left (occL_mergeTestsBlock ht) _) _) _
  · intro m hm
    rw [merge_structured_eq aiSummary parsedData hf]
    rw [show mergeAIPrefix aiSummary ++ diagTreatHeader ++
        mergeDiagBlock parsedData ++ mergeTestsBlock parsedData ++
        mergeHospBlock parsedData ++ mergeCondDischarge aiSummary ++
        medsFollowHeader ++ mergeMedsBody parsedData ++ ['\n'] ++
        mergeTail aiSummary =
      (mergeAIPrefix aiSummary ++ diagTreatHeader ++
        mergeDiagBlock parsedData ++ mergeTestsBlock parsedData ++
        mergeHospBlock parsedData ++ mergeCondDischarge aiSummary) ++
      (medsFollowHeader ++ (mergeMedsBody parsedData ++
        (['\n'] ++ mergeTail aiSummary))) by simp [List.append_assoc]]
    refine containsSub_trim_of_occL_nonWsRight ?_ hmh
    refine occursWithLeft_append_right (occursWithLeft_append_left
      (occL_mergeHospBlock hm) _) _

/-- Witness for C1 (amended) at a concrete parse. -/
theorem merger_preserves_extracted_lists_witness :
    containsSub
      (mergeWithAISummary "narrative".toList
        { diagnoses := ["Acute COPD exacerbation".toList],
          hospitalMedications := ["INJ AUGMENTIN 1.2 GM IV".toList],
          dischargeMedications := [], tests := ["Hb - 12".toList],
          hasStructuredData := true })
      "Acute COPD exacerbation".toList = true ∧
    containsSub
      (mergeWithAISummary "narrative".toList
        { diagnoses := ["Acute COPD exacerbation".toList],
          hospitalMedications := ["INJ AUGMENTIN 1.2 GM IV".toList],
          dischargeMedications := [], tests := ["Hb - 12".toList],
          hasStructuredData := true })
      "Hb - 12".toList = true ∧
    containsSub
      (mergeWithAISummary "narrative".toList
        { diagnoses := ["Acute COPD exacerbation".toList],
          hospitalMedications := ["INJ AUGMENTIN 1.2 GM IV".toList],
          dischargeMedications := [], tests := ["Hb - 12".toList],
          hasStructuredData := true })
      (trimStr "INJ AUGMENTIN 1.2 GM IV".toList) = true := by
  have h := merger_preserves_extracted_lists "narrative".toList
    { diagnoses := ["Acute COPD exacerbation".toList],
      hospitalMedications := ["INJ AUGMENTIN 1.2 GM IV".toList],
      dischargeMedications := [], tests := ["Hb - 12".toList],
      hasStructuredData := true } rfl
  exact ⟨h.1 _ (by simp), h.2.1 _ (by simp), h.2.2 _ (by simp)⟩

/-! ## outputValidator.js : validateSummaryQuality -/

/-- Bounded lazy gap `[\s\S]{0,max}` followed by `step`: try the stop at
    each offset from 0 to `max`, shortest first. -/
def boundedSearch {α : Type} (step : PSt → Option α) : Nat → PSt → Option α
  | fuel, st =>
    match step st with
    | some r => some r
    | none =>
      match fuel, st.1 with
      | 0, _ => none
      | _, [] => none
      | k + 1, _ :: cs => boundedSearch step k (cs, st.2 + 1)

/-- All match start indices of a literal pattern, case-insensitively, with
    the `exec`/`lastIndex` jump past each match (non-overlapping). -/
def occIdxScanCI (pat : Str) : Nat → Str → Nat → List Nat
  | 0, _, _ => []
  | _ + 1, [], _ => []
  | fuel + 1, s@(_ :: cs), i =>
    if startsWithCI pat s then
      i :: occIdxScanCI pat fuel (s.drop pat.length) (i + pat.length)
    else occIdxScanCI pat fuel cs (i + 1)

def occIdxCI (pat s : Str) : List Nat := occIdxScanCI pat (s.length + 1) s 0

/-- `artery walls["\']?>/i`. -/
def testArteryWalls (s : Str) : Bool :=
  (scanFirst (fun t => (do
    let st ← eatLitCI "artery walls".toList (t, 0)
    let st := eatOpt (fun c => c = '"' || c = '\'') st
    let st ← eatChar '>' st
    pure st.2)) s).isSome

/-- `www\.[a-z0-9\-]+\.(org|com|in)/i`. -/
def testWww (s : Str) : Bool :=
  (scanFirst (fun t => (do
    let st ← eatLitCI "www.".toList (t, 0)
    let st ← eatRun1 (fun c => asciiLetter c || jsDigit c || c = '-') st
    let st ← eatChar '.' st
    let st ← eatAltCI (["org", "com", "in"].map String.toList) st
    pure st.2)) s).isSome

/-- `KMC\s*No\.?\s*\d{5,}/i`. -/
def testKMC (s : Str) : Bool :=
  (scanFirst (fun t => (do
    let st ← eatLitCI "KMC".toList (t, 0)
    let st := eatRun jsWs st
    let st ← eatLitCI "No".toList st
    let st := eatOpt (· = '.') st
    let st := eatRun jsWs st
    let r := st.1.takeWhile jsDigit
    if 5 ≤ r.length then pure (st.2 + r.length) else none)) s).isSome

/-- `RMHIP\/\d+` (case-sensitive). -/
def testRMHIP (s : Str) : Bool :=
  (scanFirst (fun t => (do
    let st ← eatLit "RMHIP/".toList (t, 0)
    let st ← eatRun1 jsDigit st
    pure st.2)) s).isSome

/-- `MH\d{8}` (case-sensitive). -/
def testMH8 (s : Str) : Bool :=
  (scanFirst (fun t => (do
    let st ← eatLit "MH".toList (t, 0)
    let st ← eatExact jsDigit 8 st
    pure st.2)) s).isSome

/-- The ten OCR-artifact patterns, in source order. -/
def ocrArtifactTests : List (Str → Bool) :=
  [testArteryWalls,
   fun s => containsSubCI s "TOMBINU".toList,
   fun s => containsSubCI s "OLD MEDICATIONG".toList,
   testWww, testKMC, testRMHIP, testMH8,
   fun s => containsSubCI s "Prepared by:".toList,
   fun s => containsSubCI s "Sinus rhythm".toList,
   fun s => containsSubCI s "Abnormal R-wave".toList]

/-- `DIAGNOSES:[\s\S]{0,200}(DISCHARGE SUMMARY|76 Years|Months \/ Female)/i`. -/
def testHeaderGarbage (s : Str) : Bool :=
  (scanFirst (fun t =>
    (eatLitCI "DIAGNOSES:".toList (t, 0)).bind (fun st =>
      boundedSearch (fun st1 =>
        altTryCI (["DISCHARGE SUMMARY", "76 Years",
          "Months / Female"].map String.toList) st1 (fun st2 => some st2.2))
        200 st)) s).isSome

/-- `Note:[\s\S]{0,100}(TAB|CAP|INJ)[\s\S]{0,100}(TAB|CAP|INJ)/i`. -/
def testMashedNote (s : Str) : Bool :=
  (scanFirst (fun t =>
    (eatLitCI "Note:".toList (t, 0)).bind (fun st =>
      boundedSearch (fun st1 =>
        altTryCI (["TAB", "CAP", "INJ"].map String.toList) st1 (fun st2 =>
          boundedSearch (fun st3 =>
            altTryCI (["TAB", "CAP", "INJ"].map String.toList) st3
              (fun st4 => some st4.2)) 100 st2)) 100 st)) s).isSome

/-- `\*\*MEDICATIONS TO FOLLOW[\s\S]*Note:\s*$/i`: somewhere a medications
    header, and after it a `Note:` followed only by whitespace to the end. -/
def noteTrailing : Str → Bool
  | [] => false
  | s@(_ :: cs) =>
    (startsWithCI "Note:".toList s && (s.drop 5).all jsWs) || noteTrailing cs

def testIncompleteMeds : Str → Bool
  | [] => false
  | s@(_ :: cs) =>
    (startsWithCI "**MEDICATIONS TO FOLLOW".toList s &&
      noteTrailing (s.drop 23)) || testIncompleteMeds cs

/-- The four duplicate-checked headers of validateSummaryQuality. -/
def validatorHeaders : List Str :=
  ["PATIENT HISTORY", "DIAGNOSIS AND TREATMENT GIVEN",
   "MEDICATIONS TO FOLLOW AFTER DISCHARGE",
   "FOLLOW-UP AND FUTURE CARE"].map String.toList

/-- One issue entry per detected defect (the report's human-readable issue
    strings are not modelled; each tag corresponds to one `issues.push`). -/
inductive IssueTag where
  | ocrArtifact (idx : Nat)
  | headerGarbage
  | mashedMeds
  | duplicateSection (header : Str)
  | incompleteMeds
  | tooShort
  | missingSection (name : Str)
deriving DecidableEq, Repr

structure QualityReport where
  valid : Bool
  score : Int
  issues : List IssueTag
deriving DecidableEq, Repr

/-- Check 1: indices of the OCR-artifact patterns that match. -/
def artifactHits (summary : Str) : List Nat :=
  ((ocrArtifactTests.enum).filter (fun p => p.2 summary)).map (·.1)

/-- Check 4: headers whose `\*\*H\*\*` pattern matches more than once. -/
def dupHeaderHits (summary : Str) : List Str :=
  validatorHeaders.filter
    (fun h => 1 < (occIdxCI ('*' :: '*' :: h ++ "**".toList) summary).length)

def artifactPenalty (summary : Str) : Int := 15 * (artifactHits summary).length

def headerGarbagePenalty (summary : Str) : Int :=
  if testHeaderGarbage summary then 20 else 0

def mashedPenalty (summary : Str) : Int :=
  if testMashedNote summary then 25 else 0

def dupPenalty (summary : Str) : Int := 10 * (dupHeaderHits summary).length

def incompletePenalty (summary : Str) : Int :=
  if testIncompleteMeds summary then 20 else 0

def shortPenalty (summary : Str) : Int :=
  if summary.length < 200 then 30 else 0

def missingPenalty (summary : Str) : Int :=
  if !containsSub summary "DIAGNOSIS AND TREATMENT GIVEN".toList then 20 else 0

/-- outputValidator.js `validateSummaryQuality`: score starts at 100 and
    each check subtracts its fixed penalty; `valid` is `score >= 60`. -/
def validateSummaryQuality (summary : Str) : QualityReport :=
  let issues :=
    (artifactHits summary).map IssueTag.ocrArtifact ++
    (if testHeaderGarbage summary then [IssueTag.headerGarbage] else []) ++
    (if testMashedNote summary then [IssueTag.mashedMeds] else []) ++
    (dupHeaderHits summary).map IssueTag.duplicateSection ++
    (if testIncompleteMeds summary then [IssueTag.incompleteMeds] else []) ++
    (if summary.length < 200 then [IssueTag.tooShort] else []) ++
    (if !containsSub summary "DIAGNOSIS AND TREATMENT GIVEN".toList then
      [IssueTag.missingSection "DIAGNOSIS AND TREATMENT GIVEN".toList]
     else [])
  let score : Int := 100 - artifactPenalty summary -
    headerGarbagePenalty summary - mashedPenalty summary - dupPenalty summary -
    incompletePenalty summary - shortPenalty summary - missingPenalty summary
  { valid := decide (60 ≤ score), score := score, issues := issues }

/-- C10 counterexample: five artifact hits plus the short-output and
    missing-section penalties drive the score to -25, outside 0-100. -/
theorem quality_score_can_go_negative :
    (validateSummaryQuality
      "TOMBINU OLD MEDICATIONG Prepared by: Sinus rhythm Abnormal R-wave".toList).score
      = -25 ∧
    (validateSummaryQuality
      "TOMBINU OLD MEDICATIONG Prepared by: Sinus rhythm Abnormal R-wave".toList).valid
      = false := by
  refine ⟨?_, ?_⟩ <;> decide

/-- C10 (amended): the score is an integer at most 100 (100 minus fixed
    penalties per detected defect category, with no lower clamp, so it can
    fall below 0), and the valid flag is true iff score >= 60. -/
theorem quality_score_upper_bound_and_valid_iff (summary : Str) :
    (validateSummaryQuality summary).score ≤ 100 ∧
    ((validateSummaryQuality summary).valid = true ↔
      60 ≤ (validateSummaryQuality summary).score) := by
  have hone : ∀ (b : Bool) (k : Int), 0 ≤ k →
      (0 : Int) ≤ (if b = true then k else 0) := by
    intro b k hk
    split <;> omega
  have h1 : 0 ≤ artifactPenalty summary := by
    unfold artifactPenalty; positivity
  have h2 : 0 ≤ headerGarbagePenalty summary := hone _ _ (by omega)
  have h3 : 0 ≤ mashedPenalty summary := hone _ _ (by omega)
  have h4 : 0 ≤ dupPenalty summary := by
    unfold dupPenalty; positivity
  have h5 : 0 ≤ incompletePenalty summary := hone _ _ (by omega)
  have h6 : 0 ≤ shortPenalty summary := by
    unfold shortPenalty
    split <;> omega
  have h7 : 0 ≤ missingPenalty summary := hone _ _ (by omega)
  have hs : (validateSummaryQuality summary).score = 100 -
      artifactPenalty summary - headerGarbagePenalty summary -
      mashedPenalty summary - dupPenalty summary -
      incompletePenalty summary - shortPenalty summary -
      missingPenalty summary := rfl
  have hv : (validateSummaryQuality summary).valid =
      decide (60 ≤ (validateSummaryQuality summary).score) := rfl
  constructor
  · rw [hs]; omega
  · rw [hv]
    exact decide_eq_true_iff

/-! ## outputValidator.js : deepCleanSummary

Phase 1 applies the artifact-removal replaces in source order, five times;
phase 2 truncates at the second occurrence of a duplicated section header;
phase 3 fixes formatting.  Each JavaScript `replace` becomes one function. -/

/-- `["\']?\s*>\s*` — the corruption-marker gap shared by several rules. -/
def gtGap (st : PSt) : Option PSt := do
  let st := eatOpt (fun c => c = '"' || c = '\'') st
  let st := eatRun jsWs st
  let st ← eatChar '>' st
  pure (eatRun jsWs st)

def truncAtCI (pat : Str) (s : Str) : Str :=
  truncAt (fun t => startsWithCI pat t) s

/-- `\*\*NOTE:\*\*[\s\S]*?(?=\*\*[A-Z]|$)` lookahead target. -/
def noteStopHere : Str → Bool
  | '*' :: '*' :: c :: _ => asciiLetter c
  | _ => false

def distUntil (p : Str → Bool) : Str → Nat
  | [] => 0
  | s@(_ :: cs) => if p s then 0 else 1 + distUntil p cs

/-- Rule: `/\*\*NOTE:\*\*[\s\S]*?(?=\*\*[A-Z]|$)/gi` → removed. -/
def dcNoteRule (s : Str) : Str :=
  replAll (fun t =>
    if startsWithCI "**NOTE:**".toList t then
      some (9 + distUntil noteStopHere (t.drop 9), [])
    else none) (s.length + 1) s

/-- Rule: `/DIAGNOSES:\s*-\s*DISCHARGE SUMMARY/gi` → `DIAGNOSES:`. -/
def dcDiagGarbage1 (s : Str) : Str :=
  replAll (fun t => (do
    let st ← eatLitCI "DIAGNOSES:".toList (t, 0)
    let st := eatRun jsWs st
    let st ← eatChar '-' st
    let st := eatRun jsWs st
    let st ← eatLitCI "DISCHARGE SUMMARY".toList st
    pure (st.2, "DIAGNOSES:".toList))) (s.length + 1) s

/-- Rule (gi): pattern `-\s*DISCHARGE SUMMARY\s*` → removed. -/
def dcDiagGarbage2 (s : Str) : Str :=
  replAll (fun t => (do
    let st ← eatChar '-' (t, 0)
    let st := eatRun jsWs st
    let st ← eatLitCI "DISCHARGE SUMMARY".toList st
    pure ((eatRun jsWs st).2, ([] : Str)))) (s.length + 1) s

/-- Rule (gi): pattern `-\s*Months\s*\/\s*Female` → removed. -/
def dcMonthsFemale (s : Str) : Str :=
  replAll (fun t => (do
    let st ← eatChar '-' (t, 0)
    let st := eatRun jsWs st
    let st ← eatLitCI "Months".toList st
    let st := eatRun jsWs st
    let st ← eatChar '/' st
    let st := eatRun jsWs st
    let st ← eatLitCI "Female".toList st
    pure (st.2, ([] : Str)))) (s.length + 1) s

/-- Rule (gi): pattern `-\s*\d+\s*Years\s*\/?\s*(Male|Female)?` → removed. -/
def dcYearsSex (s : Str) : Str :=
  replAll (fun t => (do
    let st ← eatChar '-' (t, 0)
    let st := eatRun jsWs st
    let st ← eatRun1 jsDigit st
    let st := eatRun jsWs st
    let st ← eatLitCI "Years".toList st
    let st := eatRun jsWs st
    let st := eatOpt (· = '/') st
    let st := eatRun jsWs st
    let st :=
      match eatAltCI (["Male", "Female"].map String.toList) st with
      | some st2 => st2
      | none => st
    pure (st.2, ([] : Str)))) (s.length + 1) s

/-- One `PHRASE["\']?\s*>\s*TERM` fixed rewrite rule (case-insensitive). -/
def dcMarkerRule (phrase term : Str) (rep : Str) (s : Str) : Str :=
  replAll (fun t => (do
    let st ← eatLitCI phrase (t, 0)
    let st ← gtGap st
    let st ← eatLitCI term st
    pure (st.2, rep))) (s.length + 1) s

/-- Rule: `/artery\s+walls["\']?\s*>\s*[Hh]ypertension/gi`. -/
def dcArteryWalls (s : Str) : Str :=
  replAll (fun t => (do
    let st ← eatLitCI "artery".toList (t, 0)
    let st ← eatRun1 jsWs st
    let st ← eatLitCI "walls".toList st
    let st ← gtGap st
    let st ← eatCharP (fun c => c = 'H' || c = 'h') st
    let st ← eatLitCI "ypertension".toList st
    pure (st.2, "high blood pressure".toList))) (s.length + 1) s

/-- Rules: `/systemic\s+artery\s+walls["\']?\s*>\s*hypertension/gi` and its
    uppercase twin. -/
def dcSystemicArtery (s : Str) : Str :=
  replAll (fun t => (do
    let st ← eatLitCI "systemic".toList (t, 0)
    let st ← eatRun1 jsWs st
    let st ← eatLitCI "artery".toList st
    let st ← eatRun1 jsWs st
    let st ← eatLitCI "walls".toList st
    let st ← gtGap st
    let st ← eatLitCI "hypertension".toList st
    pure (st.2, "high blood pressure".toList))) (s.length + 1) s

/-- Rule: `/ultrasound["\']?\s*>\s*/gi` → removed. -/
def dcUltrasound (s : Str) : Str :=
  replAll (fun t => (do
    let st ← eatLitCI "ultrasound".toList (t, 0)
    let st ← gtGap st
    pure (st.2, ([] : Str)))) (s.length + 1) s

/-- Rule: `/[\w\s]+["\']?\s*>\s*([A-Z][a-z]+)/g` → `$1` (keep only the
    capitalized term after the marker). -/
def dcGenericMarker (s : Str) : Str :=
  replAll (fun t => (do
    let st ← eatRun1 (fun c => jsWord c || jsWs c) (t, 0)
    let st ← gtGap st
    let st1 ← eatCharP asciiUpper st
    let st2 ← eatRun1 asciiLower st1
    let cap := (t.drop st.2).take (st2.2 - st.2)
    pure (st2.2, cap))) (s.length + 1) s

/-- Rule: `/["\']?\s*>\s*/g` → single space. -/
def dcBareMarker (s : Str) : Str :=
  replAll (fun t => (gtGap (t, 0)).map (fun st => (st.2, [' ']))) (s.length + 1) s

/-- Rule: `/RWMA,\s*GRADE\s*\d+LVDD,\s*PASP-\d+MMHG\.?\s*/gi` → removed. -/
def dcRwma1 (s : Str) : Str :=
  replAll (fun t => (do
    let st ← eatLitCI "RWMA,".toList (t, 0)
    let st := eatRun jsWs st
    let st ← eatLitCI "GRADE".toList st
    let st := eatRun jsWs st
    let st ← eatRun1 jsDigit st
    let st ← eatLitCI "LVDD,".toList st
    let st := eatRun jsWs st
    let st ← eatLitCI "PASP-".toList st
    let st ← eatRun1 jsDigit st
    let st ← eatLitCI "MMHG".toList st
    let st := eatOpt (· = '.') st
    pure ((eatRun jsWs st).2, ([] : Str)))) (s.length + 1) s

/-- Rule: `/NO\s+RWMA,\s*GRADE\s*\d+LVDD,\s*PASP-\d+MMHG/gi` → removed. -/
def dcRwma2 (s : Str) : Str :=
  replAll (fun t => (do
    let st ← eatLitCI "NO".toList (t, 0)
    let st ← eatRun1 jsWs st
    let st ← eatLitCI "RWMA,".toList st
    let st := eatRun jsWs st
    let st ← eatLitCI "GRADE".toList st
    let st := eatRun jsWs st
    let st ← eatRun1 jsDigit st
    let st ← eatLitCI "LVDD,".toList st
    let st := eatRun jsWs st
    let st ← eatLitCI "PASP-".toList st
    let st ← eatRun1 jsDigit st
    let st ← eatLitCI "MMHG".toList st
    pure (st.2, ([] : Str)))) (s.length + 1) s

/-- Rule: `/right ventricular pressure\s*\(RWMA\)/gi` → rewritten. -/
def dcRwma3 (s : Str) : Str :=
  replAll (fun t => (do
    let st ← eatLitCI "right ventricular pressure".toList (t, 0)
    let st := eatRun jsWs st
    let st ← eatLitCI "(RWMA)".toList st
    pure (st.2, "right ventricle function (normal)".toList)))
    (s.length + 1) s

/-- Tail `\s*\d{3}\s+\d{3}\s*\|` of the mashed-note rules. -/
def mashedTail (st : PSt) : Option PSt := do
  let st := eatRun jsWs st
  let st ← eatExact jsDigit 3 st
  let st ← eatRun1 jsWs st
  let st ← eatExact jsDigit 3 st
  let st := eatRun jsWs st
  eatChar '|' st

/-- Rules: `/(\*\*Note:\*\*|Note:)\s*FOLLOWED BY[\s\S]{50,500}?\s*\d{3}\s+\d{3}\s*\|/gi`
    → removed (the two source rules differ only in the leading literal). -/
def dcMashedNote (lead : Str) (s : Str) : Str :=
  replAll (fun t => (do
    let st ← eatLitCI lead (t, 0)
    let st := eatRun jsWs st
    let st ← eatLitCI "FOLLOWED BY".toList st
    if h : 50 ≤ st.1.length then
      let st ← boundedSearch mashedTail 450 (st.1.drop 50, st.2 + 50)
      pure (st.2, ([] : Str))
    else none)) (s.length + 1) s

/-- Rule: `/\s+\d{3}\s+\d{3}\s*\|\s*/g` → removed. -/
def dcTrailingPair (s : Str) : Str :=
  replAll (fun t => (do
    let st ← eatRun1 jsWs (t, 0)
    let st ← eatExact jsDigit 3 st
    let st ← eatRun1 jsWs st
    let st ← eatExact jsDigit 3 st
    let st := eatRun jsWs st
    let st ← eatChar '|' st
    pure ((eatRun jsWs st).2, ([] : Str)))) (s.length + 1) s

/-- Rule: `/\s+\d{3,}\s*\|\s*/g` → removed. -/
def dcTrailingLong (s : Str) : Str :=
  replAll (fun t => (do
    let st ← eatRun1 jsWs (t, 0)
    let r := st.1.takeWhile jsDigit
    if 3 ≤ r.length then
      let st := (st.1.drop r.length, st.2 + r.length)
      let st := eatRun jsWs st
      let st ← eatChar '|' st
      pure ((eatRun jsWs st).2, ([] : Str))
    else none)) (s.length + 1) s

/-- Rule: `/www\.[a-z0-9\-]+\.(org|com|in)[^\s]*/gi` → removed. -/
def dcWww (s : Str) : Str :=
  replAll (fun t => (do
    let st ← eatLitCI "www.".toList (t, 0)
    let st ← eatRun1 (fun c => asciiLetter c || jsDigit c || c = '-') st
    let st ← eatChar '.' st
    let st ← eatAltCI (["org", "com", "in"].map String.toList) st
    pure ((eatRun (fun c => !jsWs c) st).2, ([] : Str)))) (s.length + 1) s

/-- Rule: `/KMC\s*No\.?\s*\d{5,}/gi` → removed. -/
def dcKmc (s : Str) : Str :=
  replAll (fun t => (do
    let st ← eatLitCI "KMC".toList (t, 0)
    let st := eatRun jsWs st
    let st ← eatLitCI "No".toList st
    let st := eatOpt (· = '.') st
    let st := eatRun jsWs st
    let r := st.1.takeWhile jsDigit
    if 5 ≤ r.length then pure (st.2 + r.length, ([] : Str)) else none))
    (s.length + 1) s

/-- One pass of deepCleanSummary's phase-1 artifact removal, rules in
    source order. -/
def deepCleanPass (s : Str) : Str :=
  let s := truncAtCI "**PREPARED BY**".toList s
  let s := truncAtCI "PREPARED BY:".toList s
  let s := truncAtCI "- Prepared by".toList s
  let s := truncAtCI "Prepared by".toList s
  let s := dcNoteRule s
  let s := truncAtCI "**DISCHARGE SUMMARY**".toList s
  let s := dcDiagGarbage1 s
  let s := dcDiagGarbage2 s
  let s := dcMonthsFemale s
  let s := dcYearsSex s
  let s := dcMarkerRule "Lymph gland cancer".toList "Lymphoma".toList
    "Lymphoma".toList s
  let s := dcSystemicArtery s
  let s := dcArteryWalls s
  let s := dcSystemicArtery s
  let s := dcUltrasound s
  let s := dcGenericMarker s
  let s := dcMarkerRule "Kidney function marker".toList "creatinine".toList
    "creatinine".toList s
  let s := dcMarkerRule "Liver function marker".toList "bilirubin".toList
    "bilirubin".toList s
  let s := dcMarkerRule "Infection fighters".toList "white blood cells".toList
    "white blood cells".toList s
  let s := dcBareMarker s
  let s := dcRwma1 s
  let s := dcRwma2 s
  let s := dcRwma3 s
  let s := dcMashedNote "**Note:**".toList s
  let s := dcMashedNote "Note:".toList s
  let s := dcTrailingPair s
  let s := dcTrailingLong s
  let s := dcWww s
  let s := dcKmc s
  s

/-- Phase 1: five passes of the artifact removal loop. -/
def deepCleanPhase1 (s : Str) : Str :=
  deepCleanPass (deepCleanPass (deepCleanPass (deepCleanPass
    (deepCleanPass s))))

/-- The seven canonical section names checked in phases 2 and 3. -/
def deepSections : List Str :=
  ["PATIENT HISTORY", "CONDITION WHEN ADMITTED",
   "DIAGNOSIS AND TREATMENT GIVEN", "CONDITION AT DISCHARGE",
   "MEDICATIONS TO FOLLOW AFTER DISCHARGE", "FOLLOW-UP AND FUTURE CARE",
   "ADDITIONAL INFORMATION"].map String.toList

/-- The `\*\*SECTION\*\*` pattern of a section name. -/
def headerPat (h : Str) : Str := '*' :: '*' :: h ++ "**".toList

/-- Phase-2 step for one section: collect all (non-overlapping, `exec`)
    match indices of its header; when there are at least two, keep only the
    text before the second occurrence. -/
def phase2Step (c : Str) (h : Str) : Str :=
  match occIdxCI (headerPat h) c with
  | _ :: i2 :: _ => c.take i2
  | _ => c

/-- Phase 2: duplicate-section removal over the section list in order. -/
def deepCleanPhase2 (c : Str) : Str := deepSections.foldl phase2Step c

/-- `/\*\*\s*TO FOLLOW AFTER DISCHARGE\s*\*\*/gi` → fixed header. -/
def p3FixBrokenHeader (s : Str) : Str :=
  replAll (fun t => (do
    let st ← eatLit "**".toList (t, 0)
    let st := eatRun jsWs st
    let st ← eatLitCI "TO FOLLOW AFTER DISCHARGE".toList st
    let st := eatRun jsWs st
    let st ← eatLit "**".toList st
    pure (st.2, "**MEDICATIONS TO FOLLOW AFTER DISCHARGE**".toList)))
    (s.length + 1) s

/-- `/\*\* TO FOLLOW/gi` → `**MEDICATIONS TO FOLLOW`. -/
def p3FixToFollow (s : Str) : Str :=
  replAll (fun t =>
    if startsWithCI "** TO FOLLOW".toList t then
      some (12, "**MEDICATIONS TO FOLLOW".toList)
    else none) (s.length + 1) s

/-- `([^\n])\*\*SECTION\*\*` → `$1\n\n**SECTION**\n` for one section. -/
def p3SpaceHeader (h : Str) (s : Str) : Str :=
  replAll (fun t => (do
    let st ← eatCharP (fun c => !(c = '\n')) (t, 0)
    let cap := t.take 1
    let st ← eatLitCI (headerPat h) st
    pure (st.2, cap ++ '\n' :: '\n' :: headerPat h ++ ['\n'])))
    (s.length + 1) s

def p3SpaceHeaders (s : Str) : Str :=
  deepSections.foldl (fun acc h => p3SpaceHeader h acc) s

/-- `/\*\*([A-Z\s]+)\*\*\s*-\s*/g` → `**$1**\n- ` (case-sensitive). -/
def p3HeaderDash (s : Str) : Str :=
  replAll (fun t => (do
    let st ← eatLit "**".toList (t, 0)
    let st1 ← eatRun1 (fun c => asciiUpper c || jsWs c) st
    let cap := (t.drop 2).take (st1.2 - 2)
    let st ← eatLit "**".toList st1
    let st := eatRun jsWs st
    let st ← eatChar '-' st
    let st := eatRun jsWs st
    pure (st.2, '*' :: '*' :: cap ++ "**\n- ".toList)))
    (s.length + 1) s

/-- `/(DIAGNOSES:|TESTS & PROCEDURES:|HOSPITAL MEDICATIONS)/g` → `\n$1\n`. -/
def p3SubsectionSpacing (s : Str) : Str :=
  replAll (fun t =>
    (eatAlt (["DIAGNOSES:", "TESTS & PROCEDURES:",
      "HOSPITAL MEDICATIONS"].map String.toList) (t, 0)).map
      (fun st => (st.2, '\n' :: t.take st.2 ++ ['\n'])))
    (s.length + 1) s

/-- `/\n{4,}/g` → `\n\n\n`. -/
def p3CollapseNewlines (s : Str) : Str :=
  replAll (fun t =>
    let r := t.takeWhile (· = '\n')
    if 4 ≤ r.length then some (r.length, '\n' :: '\n' :: ['\n']) else none)
    (s.length + 1) s

/-- One `^\*\*\s*\*\*$` attempt (the `m` flag: `^` at a line start, `$`
    before a newline or at the end). -/
def blankBoldAt (t : Str) : Option Nat := do
  let st ← eatLit "**".toList (t, 0)
  let st := eatRun jsWs st
  let st ← eatLit "**".toList st
  match st.1 with
  | [] => pure st.2
  | c :: _ => if c = '\n' then pure st.2 else none

/-- `/^\*\*\s*\*\*$/gm` → removed: scan tracking line starts. -/
def p3BlankBoldLines : Bool → Nat → Str → Str
  | _, 0, s => s
  | _, _ + 1, [] => []
  | atStart, fuel + 1, s@(c :: cs) =>
    match (if atStart then blankBoldAt s else none) with
    | some n => p3BlankBoldLines false fuel (s.drop n)
    | none => c :: p3BlankBoldLines (c = '\n') fuel cs

/-- `/\*\*\s*\*\*/g` → removed. -/
def p3BlankBold (s : Str) : Str :=
  replAll (fun t => (do
    let st ← eatLit "**".toList (t, 0)
    let st := eatRun jsWs st
    let st ← eatLit "**".toList st
    pure (st.2, ([] : Str)))) (s.length + 1) s

/-- Phase 3: formatting fixes, line trimming and the final trim. -/
def deepCleanPhase3 (s : Str) : Str :=
  let s := p3FixBrokenHeader s
  let s := p3FixToFollow s
  let s := p3SpaceHeaders s
  let s := p3HeaderDash s
  let s := p3SubsectionSpacing s
  let s := p3CollapseNewlines s
  let s := p3BlankBoldLines true (s.length + 1) s
  let s := p3BlankBold s
  let s := joinLines ((splitLines s).map trimEndStr)
  trimStr s

/-- outputValidator.js `deepCleanSummary`: the three phases in order. -/
def deepCleanSummary (s : Str) : Str :=
  deepCleanPhase3 (deepCleanPhase2 (deepCleanPhase1 s))

/-! ## Claim C6: duplicate-section truncation and non-idempotence -/

theorem startsWithCI_length {pat s : Str} (h : startsWithCI pat s = true) :
    pat.length ≤ s.length := by
  induction pat generalizing s with
  | nil => simp
  | cons p ps ih =>
    cases s with
    | nil => simp [startsWithCI] at h
    | cons c cs =>
      simp only [startsWithCI, Bool.and_eq_true] at h
      simpa using ih h.2

theorem startsWithCI_of_take {pat s : Str} {n : Nat}
    (h : startsWithCI pat (s.take n) = true) : startsWithCI pat s = true := by
  induction pat generalizing s n with
  | nil => rfl
  | cons p ps ih =>
    cases s with
    | nil => simpa using h
    | cons c cs =>
      cases n with
      | zero => simp [startsWithCI] at h
      | succ m =>
        simp only [List.take, startsWithCI, Bool.and_eq_true] at h ⊢
        exact ⟨h.1, ih h.2⟩

theorem take_false_lt {pat s : Str} {n : Nat}
    (hs : startsWithCI pat s = true)
    (ht : startsWithCI pat (s.take n) = false) : n < pat.length := by
  induction pat generalizing s n with
  | nil => simp [startsWithCI] at ht
  | cons p ps ih =>
    cases s with
    | nil => simp [startsWithCI] at hs
    | cons c cs =>
      cases n with
      | zero => simp
      | succ m =>
        simp only [List.take, startsWithCI, Bool.and_eq_true] at hs ht
        rcases hs with ⟨hc, htail⟩
        rw [hc] at ht
        simp only [Bool.true_and] at ht
        have := ih htail ht
        simpa [Nat.succ_lt_succ_iff] using this

theorem occScan_short {pat : Str} {s : Str} (hlen : s.length < pat.length) :
    ∀ fuel i, occIdxScanCI pat fuel s i = [] := by
  intro fuel
  induction fuel generalizing s with
  | zero => intro i; rfl
  | succ k ih =>
    intro i
    cases s with
    | nil => rfl
    | cons c cs =>
      have hns : startsWithCI pat (c :: cs) = false := by
        cases hsw : startsWithCI pat (c :: cs)
        · rfl
        · exact absurd (startsWithCI_length hsw) (by omega)
      simp only [occIdxScanCI, hns]
      exact ih (by simp at hlen ⊢; omega) _

theorem occScan_fuel_irrel {p : Char} {ps : Str} :
    ∀ f1 f2 (s : Str) i, s.length < f1 → s.length < f2 →
      occIdxScanCI (p :: ps) f1 s i = occIdxScanCI (p :: ps) f2 s i := by
  intro f1
  induction f1 with
  | zero => intro f2 s i h1 _; omega
  | succ k ih =>
    intro f2 s i h1 h2
    cases s with
    | nil =>
      cases f2 with
      | zero => omega
      | succ k2 => rfl
    | cons c cs =>
      cases f2 with
      | zero => omega
      | succ k2 =>
        simp only [occIdxScanCI]
        by_cases hsw : startsWithCI (p :: ps) (c :: cs) = true
        · rw [hsw]
          simp only [if_true]
          have hlen : ((c :: cs).drop (p :: ps).length).length < k := by
            have := startsWithCI_length hsw
            simp at h1 ⊢
            omega
          have hlen2 : ((c :: cs).drop (p :: ps).length).length < k2 := by
            have := startsWithCI_length hsw
            simp at h2 ⊢
            omega
          rw [ih k2 _ _ hlen hlen2]
        · simp only [Bool.not_eq_true] at hsw
          rw [hsw]
          simp only [if_false, Bool.false_eq_true]
          exact ih k2 cs _ (by simp at h1; omega) (by simp at h2; omega)

theorem occScan_take_le {p : Char} {ps : Str} :
    ∀ fuel (s : Str) (n i : Nat),
      (occIdxScanCI (p :: ps) fuel (s.take n) i).length ≤
        (occIdxScanCI (p :: ps) fuel s i).length := by
  intro fuel
  induction fuel with
  | zero => intro s n i; simp [occIdxScanCI]
  | succ k ih =>
    intro s n i
    cases s with
    | nil => simp
    | cons c cs =>
      cases n with
      | zero => simp [occIdxScanCI]
      | succ m =>
        rw [show (c :: cs).take (m + 1) = c :: cs.take m from rfl]
        by_cases hfull : startsWithCI (p :: ps) (c :: cs) = true
        · by_cases htake : startsWithCI (p :: ps) (c :: cs.take m) = true
          · simp only [occIdxScanCI, hfull, htake, if_true]
            simp only [List.length_cons, Nat.succ_le_succ_iff]
            have hdt : (c :: cs.take m).drop (p :: ps).length =
                ((c :: cs).drop (p :: ps).length).take (m + 1 - (p :: ps).length) := by
              rw [show c :: cs.take m = (c :: cs).take (m + 1) from rfl]
              rw [List.drop_take]
            simp only [List.length_cons] at hdt
            rw [hdt]
            exact ih _ _ _
          · have hlt : m + 1 < (p :: ps).length := by
              refine take_false_lt hfull ?_
              simpa using htake
            simp only [Bool.not_eq_true] at htake
            simp only [occIdxScanCI, hfull, htake, if_true, if_false,
              Bool.false_eq_true]
            have hshort : (cs.take m).length < (p :: ps).length := by
              have : (cs.take m).length ≤ m := by
                simpa using List.length_take_le m cs
              omega
            rw [occScan_short hshort]
            simp
        · have htake : startsWithCI (p :: ps) (c :: cs.take m) = false := by
            cases hx : startsWithCI (p :: ps) (c :: cs.take m)
            · rfl
            · exact absurd
                (startsWithCI_of_take
                  (by rw [show c :: cs.take m = (c :: cs).take (m + 1) from rfl]
                        at hx
                      exact hx)) (by simp [hfull])
          simp only [Bool.not_eq_true] at hfull
          simp only [occIdxScanCI, hfull, htake, if_false, Bool.false_eq_true]
          exact ih cs m (i + 1)

theorem occIdxCI_take_le {p : Char} {ps : Str} (s : Str) (n : Nat) :
    (occIdxCI (p :: ps) (s.take n)).length ≤ (occIdxCI (p :: ps) s).length := by
  unfold occIdxCI
  have h1 : (s.take n).length < (s.take n).length + 1 := by omega
  have h2 : (s.take n).length < s.length + 1 := by
    rw [List.length_take]
    omega
  rw [occScan_fuel_irrel ((s.take n).length + 1) (s.length + 1) _ 0 h1 h2]
  exact occScan_take_le _ _ _ _

theorem phase2Step_id {x h : Str}
    (hle : (occIdxCI (headerPat h) x).length ≤ 1) : phase2Step x h = x := by
  unfold phase2Step
  split
  · rename_i i1 i2 rest heq
    rw [heq] at hle
    simp at hle
  · rfl

theorem foldl_phase2_id {L : List Str} {c : Str}
    (hid : ∀ h ∈ L, phase2Step c h = c) : L.foldl phase2Step c = c := by
  induction L with
  | nil => rfl
  | cons x L ih =>
    simp only [List.foldl]
    rw [hid x (by simp)]
    exact ih (fun h hm => hid h (by simp [hm]))

/-- C6 (amended): when exactly one canonical section header repeats (at
    least twice, every other listed header occurring at most once), the
    deep clean's duplicate-removal phase keeps only the text before the
    second occurrence, discarding everything from it onward. -/
theorem deepClean_duplicate_truncation (c : Str) (h : Str) (i1 i2 : Nat)
    (rest : List Nat) (hmem : h ∈ deepSections)
    (hocc : occIdxCI (headerPat h) c = i1 :: i2 :: rest)
    (hothers : ∀ h' ∈ deepSections, h' ≠ h →
      (occIdxCI (headerPat h') c).length ≤ 1) :
    deepCleanPhase2 c = c.take i2 := by
  rcases List.append_of_mem hmem with ⟨L1, L2, hsplit⟩
  have hnodup : deepSections.Nodup := by decide
  have hnodup2 : (L1 ++ h :: L2).Nodup := by rw [← hsplit]; exact hnodup
  have hdisj := List.disjoint_of_nodup_append hnodup2
  have hL1 : h ∉ L1 := fun hx => hdisj hx (by simp)
  have hL2 : h ∉ L2 := by
    have := (List.nodup_append.mp hnodup2).2.1
    exact (List.nodup_cons.mp this).1
  unfold deepCleanPhase2
  rw [hsplit, List.foldl_append]
  have hstep1 : L1.foldl phase2Step c = c := by
    refine foldl_phase2_id (fun x hx => phase2Step_id ?_)
    refine hothers x (by rw [hsplit]; exact List.mem_append.mpr (Or.inl hx)) ?_
    intro hxh
    exact hL1 (hxh ▸ hx)
  rw [hstep1]
  simp only [List.foldl]
  have hstep2 : phase2Step c h = c.take i2 := by
    simp only [phase2Step, hocc]
  rw [hstep2]
  refine foldl_phase2_id (fun x hx => phase2Step_id ?_)
  have hle1 : (occIdxCI (headerPat x) c).length ≤ 1 := by
    refine hothers x
      (by rw [hsplit]
          exact List.mem_append.mpr (Or.inr (List.mem_cons_of_mem _ hx))) ?_
    intro hxh
    exact hL2 (hxh ▸ hx)
  calc (occIdxCI (headerPat x) (c.take i2)).length
      ≤ (occIdxCI (headerPat x) c).length :=
        @occIdxCI_take_le '*' ('*' :: x ++ "**".toList) c i2
    _ ≤ 1 := hle1

/-- Witness for C6 (amended): a narrative whose PATIENT HISTORY header
    appears twice with different bodies is truncated at the second
    occurrence by the duplicate-removal phase. -/
theorem deepClean_duplicate_truncation_witness :
    deepCleanPhase2
      "**PATIENT HISTORY**\nfirst body\n**PATIENT HISTORY**\nsecond body".toList
      = ("**PATIENT HISTORY**\nfirst body\n**PATIENT HISTORY**\nsecond body".toList).take
          31 := by
  refine deepClean_duplicate_truncation _ "PATIENT HISTORY".toList 0 31 []
    (by decide) (by decide) (by decide)

/-- C6 counterexample: deepCleanSummary is not idempotent; the formatting
    phase inserts fresh blank lines around the DIAGNOSES: label on every
    run, so a second application changes the output again. -/
theorem deepClean_not_idempotent_cex :
    deepCleanSummary (deepCleanSummary "A DIAGNOSES: B".toList) ≠
      deepCleanSummary "A DIAGNOSES: B".toList := by decide

/-! ## utils (part_011) : repairJSON and extractJSON

`JSON.parse` is embedded as a strict JSON parser (ECMA-404 grammar: strict
whitespace set, no trailing commas, no single quotes, leading-zero and bare
control-character rejection).  Numbers are kept as their source lexemes
(JavaScript would convert them to floats; no claim depends on numeric
value), object fields as ordered key-value lists. -/

def lbrace : Char := Char.ofNat 123

def rbrace : Char := Char.ofNat 125

inductive Json where
  | null
  | bool (b : Bool)
  | num (lexeme : Str)
  | str (s : Str)
  | arr (elems : List Json)
  | obj (fields : List (Str × Json))

def Json.isArr : Json → Bool
  | .arr _ => true
  | _ => false

def jsonWsChar (c : Char) : Bool :=
  c = ' ' || c = '\t' || c = '\n' || c = '\r'

def skipJsonWs (s : Str) : Str := s.dropWhile jsonWsChar

def isHexDigit (c : Char) : Bool :=
  jsDigit c || ('a' ≤ c && c ≤ 'f') || ('A' ≤ c && c ≤ 'F')

def hexVal (c : Char) : Nat :=
  if jsDigit c then c.toNat - 48
  else if 'a' ≤ c && c ≤ 'f' then c.toNat - 87
  else c.toNat - 55

/-- String body after the opening quote; decodes escapes, rejects bare
    control characters and bad escapes. -/
def parseJsonStringBody : Nat → Str → Option (Str × Str)
  | 0, _ => none
  | _ + 1, [] => none
  | fuel + 1, c :: cs =>
    if c = '"' then some ([], cs)
    else if c = '\\' then
      match cs with
      | 'u' :: h1 :: h2 :: h3 :: h4 :: cs2 =>
        if isHexDigit h1 && isHexDigit h2 && isHexDigit h3 && isHexDigit h4 then
          (parseJsonStringBody fuel cs2).map (fun p =>
            (Char.ofNat (((hexVal h1 * 16 + hexVal h2) * 16 + hexVal h3) * 16 +
              hexVal h4) :: p.1, p.2))
        else none
      | e :: cs2 =>
        let dec : Option Char :=
          if e = '"' then some '"'
          else if e = '\\' then some '\\'
          else if e = '/' then some '/'
          else if e = 'b' then some (Char.ofNat 8)
          else if e = 'f' then some (Char.ofNat 12)
          else if e = 'n' then some '\n'
          else if e = 'r' then some '\r'
          else if e = 't' then some '\t'
          else none
        match dec with
        | some d =>
          (parseJsonStringBody fuel cs2).map (fun p => (d :: p.1, p.2))
        | none => none
      | [] => none
    else if c.toNat < 32 then none
    else (parseJsonStringBody fuel cs).map (fun p => (c :: p.1, p.2))

/-- JSON number lexeme `-?(0|[1-9][0-9]*)(\.[0-9]+)?([eE][+-]?[0-9]+)?`. -/
def parseJsonNumber (s : Str) : Option (Str × Str) := do
  let st := eatOpt (· = '-') (s, 0)
  let st ←
    match st.1 with
    | '0' :: r => some (r, st.2 + 1)
    | c :: _ => if jsDigit c && !(c = '0') then eatRun1 jsDigit st else none
    | [] => none
  let st ←
    match st.1 with
    | '.' :: r => eatRun1 jsDigit (r, st.2 + 1)
    | _ => some st
  let st ←
    match st.1 with
    | c :: r =>
      if c = 'e' || c = 'E' then
        eatRun1 jsDigit (eatOpt (fun d => d = '+' || d = '-') (r, st.2 + 1))
      else some st
    | [] => some st
  pure (s.take st.2, st.1)

mutual

def parseJsonValue : Nat → Str → Option (Json × Str)
  | 0, _ => none
  | fuel + 1, s =>
    match skipJsonWs s with
    | [] => none
    | c :: rest =>
      if c = '"' then
        (parseJsonStringBody (rest.length + 1) rest).map
          (fun p => (Json.str p.1, p.2))
      else if c = '[' then
        (parseJsonArrayFirst fuel rest).map (fun p => (Json.arr p.1, p.2))
      else if c = lbrace then
        (parseJsonObjFirst fuel rest).map (fun p => (Json.obj p.1, p.2))
      else if startsWith "true".toList (c :: rest) then
        some (Json.bool true, (c :: rest).drop 4)
      else if startsWith "false".toList (c :: rest) then
        some (Json.bool false, (c :: rest).drop 5)
      else if startsWith "null".toList (c :: rest) then
        some (Json.null, (c :: rest).drop 4)
      else if c = '-' || jsDigit c then
        (parseJsonNumber (c :: rest)).map (fun p => (Json.num p.1, p.2))
      else none

def parseJsonArrayFirst : Nat → Str → Option (List Json × Str)
  | 0, _ => none
  | fuel + 1, s =>
    match skipJsonWs s with
    | ']' :: rest => some ([], rest)
    | _ => do
      let (v, r) ← parseJsonValue fuel s
      let (vs, r2) ← parseJsonArrayRest fuel r
      pure (v :: vs, r2)

def parseJsonArrayRest : Nat → Str → Option (List Json × Str)
  | 0, _ => none
  | fuel + 1, s =>
    match skipJsonWs s with
    | ',' :: rest => do
      let (v, r) ← parseJsonValue fuel rest
      let (vs, r2) ← parseJsonArrayRest fuel r
      pure (v :: vs, r2)
    | ']' :: rest => some ([], rest)
    | _ => none

def parseJsonMember : Nat → Str → Option ((Str × Json) × Str)
  | 0, _ => none
  | fuel + 1, s =>
    match skipJsonWs s with
    | '"' :: rest => do
      let (key, r) ← parseJsonStringBody (rest.length + 1) rest
      match skipJsonWs r with
      | ':' :: r2 => do
        let (v, r3) ← parseJsonValue fuel r2
        pure ((key, v), r3)
      | _ => none
    | _ => none

def parseJsonObjFirst : Nat → Str → Option (List (Str × Json) × Str)
  | 0, _ => none
  | fuel + 1, s =>
    match skipJsonWs s with
    | c :: rest =>
      if c = rbrace then some ([], rest)
      else do
        let (kv, r) ← parseJsonMember fuel s
        let (kvs, r2) ← parseJsonObjRest fuel r
        pure (kv :: kvs, r2)
    | [] => none

def parseJsonObjRest : Nat → Str → Option (List (Str × Json) × Str)
  | 0, _ => none
  | fuel + 1, s =>
    match skipJsonWs s with
    | c :: rest =>
      if c = ',' then do
        let (kv, r) ← parseJsonMember fuel rest
        let (kvs, r2) ← parseJsonObjRest fuel r
        pure (kv :: kvs, r2)
      else if c = rbrace then some ([], rest)
      else none
    | [] => none

end

/-- `JSON.parse`: a full-input parse with only trailing whitespace left. -/
def jsonParse (s : Str) : Option Json :=
  match parseJsonValue (s.length + 2) s with
  | some (v, rest) => if (skipJsonWs rest).isEmpty then some v else none
  | none => none

def takeUntilSub (s pat : Str) : Str :=
  match indexOfSub? s pat with
  | some i => s.take i
  | none => s

/-- The code-fence stripping and bracket trimming of extractJSON, producing
    the `jsonText` value that is handed to repairJSON. -/
def extractJSONText (text : Str) : Str :=
  let jsonText := trimStr text
  let jsonText :=
    if containsSub jsonText "```json".toList then
      match indexOfSub? jsonText "```json".toList with
      | some i => trimStr (takeUntilSub (jsonText.drop (i + 7)) "```".toList)
      | none => jsonText
    else if containsSub jsonText "```".toList then
      match indexOfSub? jsonText "```".toList with
      | some i => trimStr (takeUntilSub (jsonText.drop (i + 3)) "```".toList)
      | none => jsonText
    else jsonText
  let jsonText :=
    match indexOfSub? jsonText ['['], indexOfSub? jsonText [lbrace] with
    | some a, some o => if a < o then jsonText.drop a else jsonText.drop o
    | some a, none => jsonText.drop a
    | none, some o => jsonText.drop o
    | none, none => jsonText
  let jsonText :=
    match lastIndexOfChar? jsonText ']', lastIndexOfChar? jsonText rbrace with
    | some a, some o => if o < a then jsonText.take (a + 1)
                        else jsonText.take (o + 1)
    | some a, none => jsonText.take (a + 1)
    | none, some o => jsonText.take (o + 1)
    | none, none => jsonText
  let jsonText := truncAfterCloserNl ']' jsonText
  truncAfterCloserNl rbrace jsonText
where
  /-- `replace(/X\s*\n+.*$/s, 'X')`: truncate after the first closer whose
      following whitespace run contains a newline. -/
  truncAfterCloserNl (b : Char) : Str → Str
    | [] => []
    | c :: cs =>
      if c = b && (cs.takeWhile jsWs).any (· = '\n') then [c]
      else c :: truncAfterCloserNl b cs

def countChar (s : Str) (c : Char) : Nat := (s.filter (· = c)).length

/-- utils `repairJSON`: bracket/brace counting, truncation at the last
    complete object (only when its index is positive) and appending of the
    missing closers, counts taken before truncation. -/
def repairJSON (jsonText : Str) : Str :=
  let repaired := trimStr jsonText
  let openBrackets := countChar repaired '['
  let closeBrackets := countChar repaired ']'
  let openBraces := countChar repaired lbrace
  let closeBraces := countChar repaired rbrace
  if closeBrackets < openBrackets || closeBraces < openBraces then
    let repaired :=
      match lastIndexOfChar? repaired rbrace with
      | some i => if 0 < i then repaired.take (i + 1) else repaired
      | none => repaired
    let repaired := repaired ++
      (if closeBraces < openBraces then
        '\n' :: List.replicate (openBraces - closeBraces) rbrace
       else [])
    repaired ++
      (if closeBrackets < openBrackets then
        '\n' :: List.replicate (openBrackets - closeBrackets) ']'
       else [])
  else repaired

/-- All `\{[^{}]*\}` matches (the last-resort object-fragment scan). -/
def objectFragments : Nat → Str → List Str
  | 0, _ => []
  | _ + 1, [] => []
  | fuel + 1, c :: cs =>
    if c = lbrace then
      let run := cs.takeWhile (fun d => !(d = lbrace || d = rbrace))
      match cs.drop run.length with
      | d :: rest2 =>
        if d = rbrace then
          (c :: (run ++ [d])) :: objectFragments fuel rest2
        else objectFragments fuel cs
      | [] => objectFragments fuel cs
    else objectFragments fuel cs

/-- utils `extractJSON`: extract, repair, parse; on failure fix single
    quotes and reparse; as a last resort parse the individually complete
    object fragments; `none` models a thrown error. -/
def extractJSON (text : Str) : Option Json :=
  let jsonText := repairJSON (extractJSONText text)
  match jsonParse jsonText with
  | some v => some v
  | none =>
    let fixed := jsonText.map (fun c => if c = '\'' then '"' else c)
    match jsonParse fixed with
    | some v => some v
    | none =>
      let frags := objectFragments (jsonText.length + 1) jsonText
      if frags.isEmpty then none
      else
        match frags.mapM jsonParse with
        | some vs => some (Json.arr vs)
        | none => none

/-! ## Claim C7: extractJSON on array input -/

theorem trimStr_cons_nonWs {c : Char} (hc : jsWs c = false) (rest : Str) :
    ∃ t, trimStr (c :: rest) = c :: t := by
  unfold trimStr
  rw [List.dropWhile_cons]
  simp only [hc, Bool.false_eq_true, if_false]
  rw [List.reverse_cons,
    dropWhile_append_headNonWs (t := [c]) (by intro d hd; cases hd; exact hc)]
  exact ⟨(rest.reverse.dropWhile jsWs).reverse, by simp⟩

theorem cons_append_exists (c : Char) (x y z : Str) :
    ∃ t, ((c :: x) ++ y) ++ z = c :: t := ⟨(x ++ y) ++ z, by simp⟩

theorem repairJSON_head {s : Str} {t0 : Str}
    (htrim : trimStr s = '[' :: t0) : ∃ t, repairJSON s = '[' :: t := by
  unfold repairJSON
  rw [htrim]
  dsimp only
  split
  · rcases hli : lastIndexOfChar? ('[' :: t0) rbrace with _ | i
    · exact cons_append_exists _ _ _ _
    · by_cases hi : 0 < i
      · simp only [hli, hi, if_true]
        rw [List.take_succ_cons]
        exact cons_append_exists _ _ _ _
      · simp only [hli, hi, if_false]
        exact cons_append_exists _ _ _ _
  · exact ⟨t0, rfl⟩

theorem parseJsonValue_bracket_arr :
    ∀ (fuel : Nat) (t : Str) (v : Json) (r : Str),
      parseJsonValue fuel ('[' :: t) = some (v, r) → v.isArr = true := by
  intro fuel t v r h
  cases fuel with
  | zero => simp [parseJsonValue] at h
  | succ k =>
    have hskip : skipJsonWs ('[' :: t) = '[' :: t := by
      unfold skipJsonWs
      rw [List.dropWhile_cons]
      simp [jsonWsChar]
    simp only [parseJsonValue, hskip] at h
    rcases hpa : parseJsonArrayFirst k t with _ | p
    · rw [hpa] at h
      simp at h
    · rw [hpa] at h
      simp only [Option.map_some'] at h
      cases h
      rfl

theorem jsonParse_bracket_arr {t : Str} {v : Json}
    (h : jsonParse ('[' :: t) = some v) : v.isArr = true := by
  unfold jsonParse at h
  rcases hp : parseJsonValue (('[' :: t).length + 2) ('[' :: t) with _ | ⟨v0, rest0⟩
  · rw [hp] at h
    simp at h
  · rw [hp] at h
    by_cases he : (skipJsonWs rest0).isEmpty = true
    · simp only [he, if_true] at h
      cases h
      exact parseJsonValue_bracket_arr _ _ _ _ hp
    · simp only [Bool.not_eq_true] at he
      simp only [he, Bool.false_eq_true, if_false] at h
      exact absurd h (by simp)

/-- C7 counterexample: on input `[,` every repair strategy fails and
    extractJSON throws (modelled as none), although the extracted JSON text
    is an array opener. -/
theorem extractJSON_throws_on_bad_array :
    extractJSON "[,".toList = none := by rfl

/-- C7 (amended): on the truncated array input the repair utility returns
    the list containing the first complete object; and whenever the
    extracted JSON text starts with an opening bracket, any value
    extractJSON succeeds with is a list — though extractJSON can still
    throw when every repair strategy fails. -/
theorem extractJSON_array_behaviour :
    extractJSON "[\x7b\"a\":1\x7d,\x7b\"b\":2".toList =
      some (Json.arr [Json.obj [("a".toList, Json.num "1".toList)]]) ∧
    (∀ (text : Str) (v : Json), (extractJSONText text).head? = some '[' →
      extractJSON text = some v → v.isArr = true) := by
  constructor
  · rfl
  · intro text v hhead hv
    rcases hx : extractJSONText text with _ | ⟨c, t⟩
    · rw [hx] at hhead
      simp at hhead
    · rw [hx] at hhead
      have hc : c = '[' := by
        have : some c = some '[' := by simpa using hhead
        simpa using this
      subst hc
      rcases trimStr_cons_nonWs (c := '[') (by decide) t with ⟨t0, htr⟩
      rcases repairJSON_head (s := '[' :: t) htr with ⟨t1, hrep⟩
      unfold extractJSON at hv
      rw [hx, hrep] at hv
      dsimp only at hv
      rcases hp1 : jsonParse ('[' :: t1) with _ | v1
      · rw [hp1] at hv
        dsimp only at hv
        have hfix : (('[' :: t1).map (fun c => if c = '\'' then '"' else c)) =
            '[' :: (t1.map (fun c => if c = '\'' then '"' else c)) := by
          simp
        rw [hfix] at hv
        rcases hp2 : jsonParse
            ('[' :: (t1.map (fun c => if c = '\'' then '"' else c))) with _ | v2
        · rw [hp2] at hv
          rcases hfr : objectFragments (('[' :: t1).length + 1) ('[' :: t1)
              with _ | ⟨f1, fs⟩
          · rw [hfr] at hv
            simp at hv
          · rw [hfr] at hv
            simp only [List.isEmpty_cons, Bool.false_eq_true, if_false] at hv
            rcases hmm : (f1 :: fs).mapM jsonParse with _ | vs
            · rw [hmm] at hv
              simp at hv
            · rw [hmm] at hv
              cases hv
              rfl
        · rw [hp2] at hv
          cases hv
          exact jsonParse_bracket_arr hp2
      · rw [hp1] at hv
        cases hv
        exact jsonParse_bracket_arr hp1

/-- Witness for C7 (amended) at the truncated array input. -/
theorem extractJSON_array_behaviour_witness :
    (extractJSONText "[\x7b\"a\":1\x7d,\x7b\"b\":2".toList).head? = some '[' ∧
    Json.isArr (Json.arr [Json.obj [("a".toList, Json.num "1".toList)]]) =
      true :=
  ⟨rfl, extractJSON_array_behaviour.2 "[\x7b\"a\":1\x7d,\x7b\"b\":2".toList
    (Json.arr [Json.obj [("a".toList, Json.num "1".toList)]]) rfl rfl⟩

/-- C5: on the corrupted fragment `narrowed vessels">hypertension` the deep
    clean removes the marker characters (the generic keep-only-the-term
    rule matches only capitalized terms, so for the lowercase term only the
    bare-marker rule fires, replacing it with a space): the descriptive
    phrase is retained and the result is not the bare term. -/
theorem marker_cleanup_keeps_phrase :
    deepCleanSummary "narrowed vessels\">hypertension".toList =
      "narrowed vessels hypertension".toList := by decide
